import Mathlib

/-!
# ie.cpp : opening URLs in Internet Explorer through COM automation

A shallow embedding of `src/ie.cpp`.

The program talks to the outside world only through calls (COM methods of
`IWebBrowser2`, `CoCreateInstance`, `CoInitialize`, `Sleep`, the error reporter ...).
Every such call is recorded, in program order, together with the answer it got, in a
*trace*.  The outside world is an arbitrary deterministic oracle `Env`: it sees the whole
trace so far and the call being made, and chooses the answer.  Quantifying over all
oracles is quantifying over every pattern of failures and busy-flag responses.

Conventions
* `HRESULT` is a signed 32-bit value, taken as an `Int`; `FAILED hr` is `hr < 0`.
* `IWebBrowser2*` is `Option Nat`: `none` is `nullptr`, `some p` a live interface.  A
  successful `CoCreateInstance` yields the non-null interface named by the answer.
* `VARIANT` arguments of `Navigate2`: the `Flags` argument is `none` for `VT_EMPTY`
  and `some v` for `VT_I4` with value `v`; the three remaining arguments are always
  `VT_EMPTY` in the source and are left out.  `VariantInit`, `SysAllocString` and
  `VariantClear` only build and free the local argument and are not recorded.
* `show_error` is recorded as one call; which surface it writes to (console or message
  box, chosen by `attach_parent_console_if_any`) is outside the embedding.
* `while` loops whose number of iterations is not bounded by the data take a `fuel`
  argument and return `none` when it runs out.
-/

namespace IE

/-! ## Data model -/

abbrev HRESULT := Int
abbrev VARIANT_BOOL := Int

def S_OK : HRESULT := 0
/-- The value 0x80070057 read as a signed 32-bit integer. -/
def E_INVALIDARG : HRESULT := -2147024809
/-- The value 0x80004005 read as a signed 32-bit integer. -/
def E_FAIL : HRESULT := -2147467259

def VARIANT_TRUE : VARIANT_BOOL := -1
def VARIANT_FALSE : VARIANT_BOOL := 0

def FAILED (hr : HRESULT) : Bool := decide (hr < 0)
def SUCCEEDED (hr : HRESULT) : Bool := decide (0 ≤ hr)

/-- The calls the program makes to the outside world. -/
inductive Call where
  | CoInitialize
  | CoUninitialize
  | LocalFree
  | show_error (hr : HRESULT) (user_msg : String)
  | CoCreateInstance
  | put_Visible (ie : Nat) (v : VARIANT_BOOL)
  | Navigate2 (ie : Nat) (url : String) (flags : Option Int)
  | get_Busy (ie : Nat)
  | Sleep (ms : Nat)
  | Release (ie : Nat)
  deriving DecidableEq, Repr

/-- The answer to a call: the returned `HRESULT`, the value written to the `VARIANT_BOOL`
out-parameter (read for `get_Busy` only) and the interface written to the pointer
out-parameter (read for `CoCreateInstance` only).  Fields a call does not have are ignored. -/
structure Resp where
  hr : HRESULT
  busy : VARIANT_BOOL
  inst : Nat
  deriving DecidableEq, Repr

structure Event where
  call : Call
  resp : Resp
  deriving DecidableEq, Repr

abbrev Trace := List Event

/-- The outside world: given the trace so far and the call, the answer. -/
abbrev Env := Trace → Call → Resp

/-- Perform a call whose answer is not used: the trace grows by one event. -/
def record (env : Env) (h : Trace) (c : Call) : Trace := h ++ [⟨c, env h c⟩]

/-! ## `wait_until_idle` (ie.cpp 48-56) -/

/-- The `while` loop of `wait_until_idle`; `waited` is a `DWORD`, so `waited += 50` is
taken modulo `2^32`. -/
def wait_loop (env : Env) (pIE : Nat) (max_ms : Nat) : Nat → Nat → Trace → Option Trace
  | 0, _, _ => none
  | fuel + 1, waited, h =>
    if waited < max_ms then
      let r := env h (.get_Busy pIE)
      let h1 := h ++ [⟨.get_Busy pIE, r⟩]
      if SUCCEEDED r.hr && r.busy == VARIANT_TRUE then
        wait_loop env pIE max_ms fuel ((waited + 50) % 2 ^ 32) (record env h1 (.Sleep 50))
      else some h1
    else some h

def wait_until_idle (fuel : Nat) (env : Env) (pIE : Option Nat) (max_ms : Nat) (h : Trace) :
    Option Trace :=
  match pIE with
  | none => some h
  | some p => wait_loop env p max_ms fuel 0 h

/-! ## `open_urls_in_one_window` (ie.cpp 58-108) -/

/-- The loop "Next URLs in new tabs" over `urls[1..]`.  The first component is `some hr`
when the loop left the function with `return hr`, and `none` when it ran to its end. -/
def next_urls_loop (env : Env) (ie : Nat) : List String → Trace → Option HRESULT × Trace
  | [], h => (none, h)
  | u :: us, h =>
    let r := env h (.Navigate2 ie u (some 0x800))
    let h1 := h ++ [⟨.Navigate2 ie u (some 0x800), r⟩]
    if FAILED r.hr then
      let h2 := record env h1 (.show_error r.hr "failed to navigate next URL")
      (some r.hr, record env h2 (.Release ie))
    else next_urls_loop env ie us h1

def open_urls_in_one_window (fuel : Nat) (urls : List String) (env : Env) (h : Trace) :
    Option (HRESULT × Trace) :=
  match urls with
  | [] => some (E_INVALIDARG, h)
  | u0 :: rest =>
    let r := env h .CoCreateInstance
    let h1 := h ++ [⟨.CoCreateInstance, r⟩]
    if FAILED r.hr then
      some (r.hr, record env h1 (.show_error r.hr "failed to create InternetExplorer instance"))
    else
      let ie := r.inst
      let h2 := record env h1 (.put_Visible ie VARIANT_TRUE)
      let r3 := env h2 (.Navigate2 ie u0 none)
      let h3 := h2 ++ [⟨.Navigate2 ie u0 none, r3⟩]
      if FAILED r3.hr then
        let h4 := record env h3 (.show_error r3.hr "failed to navigate first URL")
        some (r3.hr, record env h4 (.Release ie))
      else
        match next_urls_loop env ie rest h3 with
        | (some hr, h4) => some (hr, h4)
        | (none, h4) =>
          match wait_until_idle fuel env (some ie) 2000 h4 with
          | none => none
          | some h5 => some (S_OK, record env h5 (.Release ie))

/-! ## `open_urls_in_split_windows` (ie.cpp 110-141) -/

/-- The range-`for` loop over `urls`, followed by `return S_OK`. -/
def split_loop (fuel : Nat) (env : Env) : List String → Trace → Option (HRESULT × Trace)
  | [], h => some (S_OK, h)
  | u :: us, h =>
    let r := env h .CoCreateInstance
    let h1 := h ++ [⟨.CoCreateInstance, r⟩]
    if FAILED r.hr then
      some (r.hr, record env h1 (.show_error r.hr "failed to create InternetExplorer instance"))
    else
      let ie := r.inst
      let h2 := record env h1 (.put_Visible ie VARIANT_TRUE)
      let r3 := env h2 (.Navigate2 ie u none)
      let h3 := h2 ++ [⟨.Navigate2 ie u none, r3⟩]
      if FAILED r3.hr then
        let h4 := record env h3 (.show_error r3.hr "failed to navigate URL")
        some (r3.hr, record env h4 (.Release ie))
      else
        match wait_until_idle fuel env (some ie) 2000 h3 with
        | none => none
        | some h4 => split_loop fuel env us (record env h4 (.Release ie))

def open_urls_in_split_windows (fuel : Nat) (urls : List String) (env : Env) (h : Trace) :
    Option (HRESULT × Trace) :=
  if urls.isEmpty then some (E_INVALIDARG, h) else split_loop fuel env urls h

/-! ## `wWinMain` (ie.cpp 144-195) -/

/-- The loop `for (int i = 1; i < argc; ++i)` over `argv[1..]`, updating `split` and `urls`. -/
def scan_args : List String → Bool → List String → Bool × List String
  | [], split, urls => (split, urls)
  | a :: rest, split, urls =>
    if a = "--split" then scan_args rest true urls else scan_args rest split (urls ++ [a])

/-- The values of `split` and `urls` after line 170: `argv` is the result of
`CommandLineToArgvW` (`none` for `NULL`), `argc` its length. -/
def parse_command_line (argv : Option (List String)) : Bool × List String :=
  let su := match argv with
    | some l => if 1 < l.length then scan_args (l.drop 1) false [] else (false, [])
    | none => (false, [])
  (su.1, if su.2.isEmpty then su.2 ++ ["about:blank"] else su.2)

/-- The program: `argv` is what `CommandLineToArgvW(GetCommandLineW(), &argc)` returned.
The result is the exit code and the trace of the whole run. -/
def wWinMain (fuel : Nat) (argv : Option (List String)) (env : Env) : Option (Int × Trace) :=
  let split := (parse_command_line argv).1
  let urls := (parse_command_line argv).2
  let h1 : Trace :=
    if argv.isNone then record env [] (.show_error E_FAIL "failed to parse command line") else []
  let r := env h1 .CoInitialize
  let h2 := h1 ++ [⟨.CoInitialize, r⟩]
  if FAILED r.hr then
    let h3 := record env h2 (.show_error r.hr "CoInitialize failed")
    some (1, if argv.isSome then record env h3 .LocalFree else h3)
  else
    match (if split && decide (2 ≤ urls.length) then open_urls_in_split_windows fuel urls env h2
           else open_urls_in_one_window fuel urls env h2) with
    | none => none
    | some (hr, h3) =>
      if FAILED hr then
        let h4 := record env h3 Call.CoUninitialize
        some (2, if argv.isSome then record env h4 .LocalFree else h4)
      else
        let h4 := record env h3 Call.CoUninitialize
        some (0, if argv.isSome then record env h4 .LocalFree else h4)

/-! ## Vocabulary for statements about traces -/

def isCreate : Call → Bool
  | .CoCreateInstance => true
  | _ => false

def isNav : Call → Bool
  | .Navigate2 _ _ _ => true
  | _ => false

def isQuery : Call → Bool
  | .get_Busy _ => true
  | _ => false

def isSleep : Call → Bool
  | .Sleep _ => true
  | _ => false

def isRelease : Call → Bool
  | .Release _ => true
  | _ => false

/-- Total time slept: the sum of the arguments of the `Sleep` calls of a trace. -/
def sleptMs : Trace → Nat
  | [] => 0
  | ⟨.Sleep ms, _⟩ :: t => ms + sleptMs t
  | _ :: t => sleptMs t

/-- The answer of a busy query makes the loop of `wait_until_idle` go on. -/
def saysBusy (r : Resp) : Bool := SUCCEEDED r.hr && r.busy == VARIANT_TRUE

/-- The events of a run of polls that each found the instance busy: every `get_Busy` is
followed by one `Sleep(50)`. -/
def busyPolls (p : Nat) : List (Resp × Resp) → Trace
  | [] => []
  | rs :: rest => ⟨.get_Busy p, rs.1⟩ :: ⟨.Sleep 50, rs.2⟩ :: busyPolls p rest

/-- The shape of one readiness wait on instance `p` bounded by `n` polls: `k ≤ n` polls that
found the instance busy, each followed by a sleep of 50 ms; then, when `k < n`, one last
query that failed or reported not busy, and nothing when `k = n`. -/
def IsWait (n p : Nat) (w : Trace) : Prop :=
  ∃ (rs : List (Resp × Resp)) (tail : Trace), w = busyPolls p rs ++ tail ∧
    (∀ q ∈ rs, saysBusy q.1 = true) ∧
    ((rs.length = n ∧ tail = []) ∨
     (rs.length < n ∧ ∃ r, tail = [⟨.get_Busy p, r⟩] ∧ saysBusy r = false))


/-- The URL of a navigation request, `none` for any other call. -/
def callUrl : Call → Option String
  | .Navigate2 _ u _ => some u
  | _ => none

/-- The URLs of the navigation requests of a trace, in the order they were issued. -/
def navUrls (t : Trace) : List String := t.filterMap (fun e => callUrl e.call)

/-- No instance creation and no navigation request of the trace failed. -/
def cnOk (t : Trace) : Prop :=
  ∀ e ∈ t, (isCreate e.call || isNav e.call) = true → FAILED e.resp.hr = false

/-- Every call of the trace was answered with a non-failing `HRESULT`. -/
def allOk (t : Trace) : Prop := ∀ e ∈ t, FAILED e.resp.hr = false

/-- The navigation requests of Consolidated mode on instance `ie` for a URL list: the first
without flags (current tab), every later one with the flag `0x800` (new tab). -/
def navCalls (ie : Nat) : List String → List Call
  | [] => []
  | u0 :: rest => .Navigate2 ie u0 none :: rest.map (fun u => .Navigate2 ie u (some 0x800))

/-- One step of the ownership automaton: `live` is the instance that has been created
and not yet released.  `none` as result means the event is not allowed in that state:
a creation while an instance is live, a use or a release of an instance that is not the
live one. -/
def lifeStep (live : Option Nat) (e : Event) : Option (Option Nat) :=
  match e.call with
  | .CoCreateInstance =>
    if live.isSome then none else if FAILED e.resp.hr then some none else some (some e.resp.inst)
  | .put_Visible i _ => if live = some i then some live else none
  | .Navigate2 i _ _ => if live = some i then some live else none
  | .get_Busy i => if live = some i then some live else none
  | .Release i => if live = some i then some none else none
  | _ => some live

/-- Run the ownership automaton over a trace. -/
def lifecycle : Option Nat → Trace → Option (Option Nat)
  | live, [] => some live
  | live, e :: t =>
    match lifeStep live e with
    | none => none
    | some live2 => lifecycle live2 t

/-- The number of events of a trace whose call satisfies `p`. -/
def countCalls (p : Call → Bool) (t : Trace) : Nat := t.countP (fun e => p e.call)

/-- The number of successful instance creations of a trace. -/
def countCreated (t : Trace) : Nat := t.countP (fun e => isCreate e.call && !FAILED e.resp.hr)

/-! ## Outcomes of the two run functions -/


/-- The outcomes of `open_urls_in_one_window` on a non-empty list, as result and trace. -/
inductive OneWindowRun (urls : List String) : HRESULT → Trace → Prop
  | create_failed (r s : Resp) : FAILED r.hr = true →
      OneWindowRun urls r.hr
        [⟨.CoCreateInstance, r⟩,
         ⟨.show_error r.hr "failed to create InternetExplorer instance", s⟩]
  | nav_failed (r v f s rel : Resp) (navs : Trace) (fl : Option Int) (msg : String)
      (pre : List String) (u : String) (post : List String) :
      FAILED r.hr = false → urls = pre ++ u :: post →
      navs.map (fun e => e.call) ++ [.Navigate2 r.inst u fl] = navCalls r.inst (pre ++ [u]) →
      allOk navs → FAILED f.hr = true →
      OneWindowRun urls f.hr
        (⟨.CoCreateInstance, r⟩ :: ⟨.put_Visible r.inst VARIANT_TRUE, v⟩ ::
          (navs ++ [⟨.Navigate2 r.inst u fl, f⟩, ⟨.show_error f.hr msg, s⟩,
            ⟨.Release r.inst, rel⟩]))
  | success (r v rel : Resp) (navs w : Trace) :
      FAILED r.hr = false → navs.map (fun e => e.call) = navCalls r.inst urls →
      allOk navs → IsWait 40 r.inst w →
      OneWindowRun urls S_OK
        (⟨.CoCreateInstance, r⟩ :: ⟨.put_Visible r.inst VARIANT_TRUE, v⟩ ::
          (navs ++ (w ++ [⟨.Release r.inst, rel⟩])))


/-- The trace of a run of complete Split-mode rounds, one per URL: creation, set-visible,
one navigation without flags, one readiness wait, release; the next round starts after
the release. -/
inductive SplitBlocks : List String → Trace → Prop
  | nil : SplitBlocks [] []
  | cons (u : String) (us : List String) (r v n rel : Resp) (w t : Trace) :
      FAILED r.hr = false → FAILED n.hr = false → IsWait 40 r.inst w → SplitBlocks us t →
      SplitBlocks (u :: us)
        (⟨.CoCreateInstance, r⟩ :: ⟨.put_Visible r.inst VARIANT_TRUE, v⟩ ::
          ⟨.Navigate2 r.inst u none, n⟩ :: (w ++ ⟨.Release r.inst, rel⟩ :: t))

/-- The outcomes of `open_urls_in_split_windows` on a list, as result and trace. -/
inductive SplitRun (urls : List String) : HRESULT → Trace → Prop
  | success (t : Trace) : SplitBlocks urls t → SplitRun urls S_OK t
  | create_failed (pre : List String) (u : String) (post : List String) (t : Trace)
      (r s : Resp) : urls = pre ++ u :: post → SplitBlocks pre t → FAILED r.hr = true →
      SplitRun urls r.hr
        (t ++ [⟨.CoCreateInstance, r⟩,
          ⟨.show_error r.hr "failed to create InternetExplorer instance", s⟩])
  | nav_failed (pre : List String) (u : String) (post : List String) (t : Trace)
      (r v f s rel : Resp) : urls = pre ++ u :: post → SplitBlocks pre t →
      FAILED r.hr = false → FAILED f.hr = true →
      SplitRun urls f.hr
        (t ++ [⟨.CoCreateInstance, r⟩, ⟨.put_Visible r.inst VARIANT_TRUE, v⟩,
          ⟨.Navigate2 r.inst u none, f⟩, ⟨.show_error f.hr "failed to navigate URL", s⟩,
          ⟨.Release r.inst, rel⟩])



/-- The report of a command line that could not be parsed (`argv == NULL`), answered `s`;
empty when it was parsed. -/
def parseReport (argv : Option (List String)) (s : Resp) : Trace :=
  if argv.isNone then [⟨.show_error E_FAIL "failed to parse command line", s⟩] else []

/-- The call `LocalFree(argv)`, answered `s`, made only when `argv` is not `NULL`. -/
def freeArgv (argv : Option (List String)) (s : Resp) : Trace :=
  if argv.isSome then [⟨.LocalFree, s⟩] else []

/-- The trace of `wWinMain` up to and including the call of `CoInitialize`. -/
def startup (env : Env) (argv : Option (List String)) : Trace :=
  record env
    (if argv.isNone then record env [] (.show_error E_FAIL "failed to parse command line")
     else []) .CoInitialize

/-- The `HRESULT` of the call of `CoInitialize` in `wWinMain`. -/
def initResult (env : Env) (argv : Option (List String)) : HRESULT :=
  (env (if argv.isNone then record env [] (.show_error E_FAIL "failed to parse command line")
     else []) .CoInitialize).hr

/-- The end of `wWinMain` after the run function: `CoUninitialize()`, then
`LocalFree(argv)` when `argv` is not `NULL`. -/
def teardown (env : Env) (argv : Option (List String)) (h : Trace) : Trace :=
  if argv.isSome then record env (record env h Call.CoUninitialize) .LocalFree
  else record env h Call.CoUninitialize

/-- The run function `wWinMain` selects (line 179), started after `CoInitialize`. -/
def selected_run (fuel : Nat) (argv : Option (List String)) (env : Env) :
    Option (HRESULT × Trace) :=
  if (parse_command_line argv).1 && decide (2 ≤ (parse_command_line argv).2.length) then
    open_urls_in_split_windows fuel (parse_command_line argv).2 env (startup env argv)
  else open_urls_in_one_window fuel (parse_command_line argv).2 env (startup env argv)

/-- The outcome of the run function selected for `split` and `urls`. -/
def RunOutcome (split : Bool) (urls : List String) (hr : HRESULT) (tr : Trace) : Prop :=
  if split = true ∧ 2 ≤ urls.length then SplitRun urls hr tr else OneWindowRun urls hr tr

/-- The calls a run function can make. -/
def isRunCall : Call → Bool
  | .CoInitialize => false
  | Call.CoUninitialize => false
  | .LocalFree => false
  | _ => true

def isInit : Call → Bool
  | .CoInitialize => true
  | _ => false

def isUninit : Call → Bool
  | Call.CoUninitialize => true
  | _ => false

/-! ## Sample environments -/

/-- A successful answer, not busy, naming instance `7`. -/
def respOk : Resp := ⟨0, 0, 7⟩

/-- A successful answer reporting busy. -/
def respBusy : Resp := ⟨0, -1, 7⟩

/-- A failure with `E_FAIL`. -/
def respFail : Resp := ⟨E_FAIL, 0, 0⟩

/-- Every call succeeds, the instance is never busy, and every created instance is `7`. -/
def envOk : Env := fun _ _ => respOk

/-- Every call succeeds and the instance reports busy forever. -/
def envBusy : Env := fun _ _ => respBusy

/-- Every call fails with `E_FAIL`. -/
def envFail : Env := fun _ _ => respFail

/-- Navigation to the URL `"b"` fails with `E_FAIL`; every other call succeeds. -/
def envFailB : Env := fun _ c => if callUrl c = some "b" then respFail else respOk

/-! ## The readiness wait -/

theorem wait_loop_shape (env : Env) (p max_ms : Nat) (hmax : max_ms ≤ 4294967250) :
    ∀ (n fuel waited : Nat) (h : Trace), 50 ∣ waited → (max_ms + 49 - waited) / 50 = n →
      n < fuel → ∃ w, wait_loop env p max_ms fuel waited h = some (h ++ w) ∧ IsWait n p w := by
  intro n
  induction n with
  | zero =>
    intro fuel waited h _ hn hf
    obtain ⟨f, rfl⟩ : ∃ f, fuel = f + 1 := ⟨fuel - 1, by omega⟩
    have hw : ¬ waited < max_ms := by omega
    refine ⟨[], ?_, [], [], rfl, by simp, Or.inl ⟨rfl, rfl⟩⟩
    simp [wait_loop, hw]
  | succ n ih =>
    intro fuel waited h hd hn hf
    obtain ⟨f, rfl⟩ : ∃ f, fuel = f + 1 := ⟨fuel - 1, by omega⟩
    have hw : waited < max_ms := by omega
    generalize hr : env h (.get_Busy p) = r at *
    by_cases hb : saysBusy r = true
    · have hmod : (waited + 50) % 2 ^ 32 = waited + 50 := by omega
      generalize hs : env (h ++ [⟨.get_Busy p, r⟩]) (.Sleep 50) = s at *
      obtain ⟨w, hw1, rs, tail, hw2, hall, hend⟩ :=
        ih f (waited + 50) (h ++ [⟨.get_Busy p, r⟩, ⟨.Sleep 50, s⟩])
          (by omega) (by omega) (by omega)
      refine ⟨⟨.get_Busy p, r⟩ :: ⟨.Sleep 50, s⟩ :: w, ?_, (r, s) :: rs, tail, ?_, ?_, ?_⟩
      · have hb2 : (SUCCEEDED r.hr && r.busy == VARIANT_TRUE) = true := hb
        simp only [wait_loop, hw, if_true, hr, hb2, hmod, record, hs]
        simpa using hw1
      · simp only [busyPolls, hw2, List.cons_append]
      · intro q hq
        rcases List.mem_cons.1 hq with rfl | hq
        · exact hb
        · exact hall q hq
      · rcases hend with ⟨h1, h2⟩ | ⟨h1, h2⟩
        · exact Or.inl ⟨by simp [h1], h2⟩
        · exact Or.inr ⟨by simp; omega, h2⟩
    · have hb2 : (SUCCEEDED r.hr && r.busy == VARIANT_TRUE) = false := by
        simpa [saysBusy] using hb
      refine ⟨[⟨.get_Busy p, r⟩], ?_, [], _, rfl, by simp,
        Or.inr ⟨by simp, _, rfl, by simpa using hb⟩⟩
      simp only [wait_loop, hw, if_true, hr, hb2]
      simp

theorem wait_until_idle_2000 (fuel : Nat) (env : Env) (p : Nat) (h : Trace) (hf : 41 ≤ fuel) :
    ∃ w, wait_until_idle fuel env (some p) 2000 h = some (h ++ w) ∧ IsWait 40 p w :=
  wait_loop_shape env p 2000 (by decide) 40 fuel 0 h (by decide) (by decide) (by omega)

theorem next_urls_loop_spec (env : Env) (ie : Nat) :
    ∀ (us : List String) (h : Trace),
      (∃ navs, next_urls_loop env ie us h = (none, h ++ navs) ∧
        navs.map (fun e => e.call) = us.map (fun u => .Navigate2 ie u (some 0x800)) ∧
        allOk navs) ∨
      (∃ navs f s rel pre u post, next_urls_loop env ie us h =
          (some f.hr, h ++ (navs ++ [⟨.Navigate2 ie u (some 0x800), f⟩,
            ⟨.show_error f.hr "failed to navigate next URL", s⟩, ⟨.Release ie, rel⟩])) ∧
        us = pre ++ u :: post ∧
        navs.map (fun e => e.call) = pre.map (fun u => .Navigate2 ie u (some 0x800)) ∧
        allOk navs ∧ FAILED f.hr = true) := by
  intro us
  induction us with
  | nil => intro h; exact Or.inl ⟨[], by simp [next_urls_loop], rfl, by simp [allOk]⟩
  | cons u us ih =>
    intro h
    generalize hr : env h (.Navigate2 ie u (some 0x800)) = r
    by_cases hf : FAILED r.hr = true
    · right
      simp only [next_urls_loop, hr, hf, if_true, record, List.append_assoc, List.cons_append,
        List.nil_append]
      exact ⟨[], r, _, _, [], u, us, rfl, rfl, rfl, by simp [allOk], hf⟩
    · have hf2 : FAILED r.hr = false := by simpa using hf
      rcases ih (h ++ [⟨.Navigate2 ie u (some 0x800), r⟩]) with
        ⟨navs, h1, h2, h3⟩ | ⟨navs, f, s, rel, pre, v, post, h1, h2, h3, h4, h5⟩
      · refine Or.inl ⟨⟨.Navigate2 ie u (some 0x800), r⟩ :: navs, ?_, by simp [h2], ?_⟩
        · simp only [next_urls_loop, hr, hf2]
          simpa using h1
        · intro e he
          rcases List.mem_cons.1 he with rfl | he
          · exact hf2
          · exact h3 e he
      · refine Or.inr ⟨⟨.Navigate2 ie u (some 0x800), r⟩ :: navs, f, s, rel, u :: pre, v, post,
          ?_, by simp [h2], by simp [h3], ?_, h5⟩
        · simp only [next_urls_loop, hr, hf2]
          simpa using h1
        · intro e he
          rcases List.mem_cons.1 he with rfl | he
          · exact hf2
          · exact h4 e he

theorem open_urls_in_one_window_spec (fuel : Nat) (env : Env) (h : Trace) (u0 : String)
    (rest : List String) (hfuel : 41 ≤ fuel) :
    ∃ hr t, open_urls_in_one_window fuel (u0 :: rest) env h = some (hr, h ++ t) ∧
      OneWindowRun (u0 :: rest) hr t := by
  generalize hr : env h .CoCreateInstance = r
  by_cases hf : FAILED r.hr = true
  · simp only [open_urls_in_one_window, hr, hf, if_true, record, List.append_assoc,
      List.cons_append, List.nil_append]
    exact ⟨_, _, rfl, OneWindowRun.create_failed r _ hf⟩
  · have hf2 : FAILED r.hr = false := by simpa using hf
    generalize hv : env (h ++ [⟨.CoCreateInstance, r⟩]) (.put_Visible r.inst VARIANT_TRUE) = v
    generalize hn : env (h ++ [⟨.CoCreateInstance, r⟩, ⟨.put_Visible r.inst VARIANT_TRUE, v⟩])
      (.Navigate2 r.inst u0 none) = n
    by_cases hnf : FAILED n.hr = true
    · simp only [open_urls_in_one_window, hr, hf2, record, hv, List.append_assoc,
        List.cons_append, List.nil_append, hn, hnf, if_true, Bool.false_eq_true, if_false]
      exact ⟨_, _, rfl, OneWindowRun.nav_failed r v n _ _ [] none
        "failed to navigate first URL" [] u0 rest hf2 rfl rfl (by simp [allOk]) hnf⟩
    · have hnf2 : FAILED n.hr = false := by simpa using hnf
      rcases next_urls_loop_spec env r.inst rest
          (h ++ [⟨.CoCreateInstance, r⟩, ⟨.put_Visible r.inst VARIANT_TRUE, v⟩,
            ⟨.Navigate2 r.inst u0 none, n⟩]) with
        ⟨navs, h1, h2, h3⟩ | ⟨navs, f, s, rel, pre, u, post, h1, h2, h3, h4, h5⟩
      · obtain ⟨w, hw1, hw2⟩ := wait_until_idle_2000 fuel env r.inst
          (h ++ [⟨.CoCreateInstance, r⟩, ⟨.put_Visible r.inst VARIANT_TRUE, v⟩,
            ⟨.Navigate2 r.inst u0 none, n⟩] ++ navs) hfuel
        simp only [open_urls_in_one_window, hr, hf2, record, hv, List.append_assoc,
          List.cons_append, List.nil_append, hn, hnf2, Bool.false_eq_true, if_false] at h1 hw1 ⊢
        simp only [h1, hw1, List.append_assoc, List.cons_append]
        refine ⟨_, _, rfl, OneWindowRun.success r v _
          (⟨.Navigate2 r.inst u0 none, n⟩ :: navs) w hf2 (by simp [navCalls, h2]) ?_ hw2⟩
        intro e he
        rcases List.mem_cons.1 he with rfl | he
        · exact hnf2
        · exact h3 e he
      · simp only [open_urls_in_one_window, hr, hf2, record, hv, List.append_assoc,
          List.cons_append, List.nil_append, hn, hnf2, Bool.false_eq_true, if_false] at h1 ⊢
        simp only [h1]
        refine ⟨_, _, rfl, OneWindowRun.nav_failed r v f s rel
          (⟨.Navigate2 r.inst u0 none, n⟩ :: navs) (some 0x800)
          "failed to navigate next URL" (u0 :: pre) u post hf2 (by simp [h2]) ?_ ?_ h5⟩
        · simp [navCalls, h3]
        · intro e he
          rcases List.mem_cons.1 he with rfl | he
          · exact hnf2
          · exact h4 e he

theorem SplitRun.cons_block {u : String} {us : List String} {hr : HRESULT} {t : Trace}
    (r v n rel : Resp) (w : Trace) (h1 : FAILED r.hr = false) (h2 : FAILED n.hr = false)
    (h3 : IsWait 40 r.inst w) (h : SplitRun us hr t) :
    SplitRun (u :: us) hr
      (⟨.CoCreateInstance, r⟩ :: ⟨.put_Visible r.inst VARIANT_TRUE, v⟩ ::
        ⟨.Navigate2 r.inst u none, n⟩ :: (w ++ ⟨.Release r.inst, rel⟩ :: t)) := by
  cases h with
  | success t hb => exact SplitRun.success _ (SplitBlocks.cons u us r v n rel w t h1 h2 h3 hb)
  | create_failed pre u2 post t r2 s hu hb hf =>
    have := @SplitRun.create_failed (u :: us) (u :: pre) u2 post _ r2 s (by simp [hu])
      (SplitBlocks.cons u pre r v n rel w t h1 h2 h3 hb) hf
    simpa using this
  | nav_failed pre u2 post t r2 v2 f s rel2 hu hb hf1 hf2 =>
    have := @SplitRun.nav_failed (u :: us) (u :: pre) u2 post _ r2 v2 f s rel2 (by simp [hu])
      (SplitBlocks.cons u pre r v n rel w t h1 h2 h3 hb) hf1 hf2
    simpa using this

theorem split_loop_spec (fuel : Nat) (env : Env) (hfuel : 41 ≤ fuel) :
    ∀ (urls : List String) (h : Trace),
      ∃ hr t, split_loop fuel env urls h = some (hr, h ++ t) ∧ SplitRun urls hr t := by
  intro urls
  induction urls with
  | nil => intro h; exact ⟨S_OK, [], by simp [split_loop], SplitRun.success _ SplitBlocks.nil⟩
  | cons u us ih =>
    intro h
    generalize hr : env h .CoCreateInstance = r
    by_cases hf : FAILED r.hr = true
    · simp only [split_loop, hr, hf, if_true, record, List.append_assoc,
        List.cons_append, List.nil_append]
      exact ⟨_, _, rfl, SplitRun.create_failed [] u us [] r _ rfl SplitBlocks.nil hf⟩
    · have hf2 : FAILED r.hr = false := by simpa using hf
      generalize hv : env (h ++ [⟨.CoCreateInstance, r⟩]) (.put_Visible r.inst VARIANT_TRUE) = v
      generalize hn : env (h ++ [⟨.CoCreateInstance, r⟩, ⟨.put_Visible r.inst VARIANT_TRUE, v⟩])
        (.Navigate2 r.inst u none) = n
      by_cases hnf : FAILED n.hr = true
      · simp only [split_loop, hr, hf2, record, hv, List.append_assoc,
          List.cons_append, List.nil_append, hn, hnf, if_true, Bool.false_eq_true, if_false]
        exact ⟨_, _, rfl, SplitRun.nav_failed [] u us [] r v n _ _ rfl SplitBlocks.nil hf2 hnf⟩
      · have hnf2 : FAILED n.hr = false := by simpa using hnf
        obtain ⟨w, hw1, hw2⟩ := wait_until_idle_2000 fuel env r.inst
          (h ++ [⟨.CoCreateInstance, r⟩, ⟨.put_Visible r.inst VARIANT_TRUE, v⟩,
            ⟨.Navigate2 r.inst u none, n⟩]) hfuel
        generalize hrel : env (h ++ [⟨.CoCreateInstance, r⟩,
          ⟨.put_Visible r.inst VARIANT_TRUE, v⟩, ⟨.Navigate2 r.inst u none, n⟩] ++ w)
          (.Release r.inst) = rel
        obtain ⟨hr2, t, ht1, ht2⟩ := ih (h ++ [⟨.CoCreateInstance, r⟩,
          ⟨.put_Visible r.inst VARIANT_TRUE, v⟩, ⟨.Navigate2 r.inst u none, n⟩] ++ w ++
          [⟨.Release r.inst, rel⟩])
        simp only [split_loop, hr, hf2, record, hv, List.append_assoc,
          List.cons_append, List.nil_append, hn, hnf2, Bool.false_eq_true, if_false]
          at hw1 hrel ht1 ⊢
        simp only [hw1, hrel, ht1, List.append_assoc, List.cons_append]
        exact ⟨_, _, rfl, SplitRun.cons_block r v n rel w hf2 hnf2 hw2 ht2⟩

theorem open_urls_in_split_windows_spec (fuel : Nat) (env : Env) (h : Trace) (u0 : String)
    (rest : List String) (hfuel : 41 ≤ fuel) :
    ∃ hr t, open_urls_in_split_windows fuel (u0 :: rest) env h = some (hr, h ++ t) ∧
      SplitRun (u0 :: rest) hr t := by
  simpa [open_urls_in_split_windows] using split_loop_spec fuel env hfuel (u0 :: rest) h


/-! ## Traces: append lemmas -/

theorem navUrls_append (a b : Trace) : navUrls (a ++ b) = navUrls a ++ navUrls b := by
  simp [navUrls]

theorem navUrls_cons (e : Event) (t : Trace) :
    navUrls (e :: t) = (callUrl e.call).toList ++ navUrls t := by
  cases h : callUrl e.call <;> simp [navUrls, List.filterMap_cons, h]

theorem countCalls_append (p : Call → Bool) (a b : Trace) :
    countCalls p (a ++ b) = countCalls p a + countCalls p b := by
  simp [countCalls]

theorem countCalls_cons (p : Call → Bool) (e : Event) (t : Trace) :
    countCalls p (e :: t) = countCalls p t + (if p e.call = true then 1 else 0) := by
  simp [countCalls, List.countP_cons]

theorem countCreated_append (a b : Trace) :
    countCreated (a ++ b) = countCreated a + countCreated b := by
  simp [countCreated]

theorem countCreated_cons (e : Event) (t : Trace) :
    countCreated (e :: t) =
      countCreated t + (if (isCreate e.call && !FAILED e.resp.hr) = true then 1 else 0) := by
  simp [countCreated, List.countP_cons]

theorem cnOk_append (a b : Trace) : cnOk (a ++ b) ↔ cnOk a ∧ cnOk b := by
  unfold cnOk
  exact List.forall_mem_append

theorem cnOk_cons (e : Event) (t : Trace) :
    cnOk (e :: t) ↔ ((isCreate e.call || isNav e.call) = true → FAILED e.resp.hr = false) ∧
      cnOk t := by
  simp [cnOk]

theorem cnOk_nil : cnOk [] := by simp [cnOk]

theorem lifecycle_append (s : Option Nat) (a b : Trace) :
    lifecycle s (a ++ b) = (lifecycle s a).bind (fun s2 => lifecycle s2 b) := by
  induction a generalizing s with
  | nil => simp [lifecycle]
  | cons e a ih =>
    simp only [List.cons_append, lifecycle]
    cases lifeStep s e with
    | none => simp
    | some s2 => simpa using ih s2

theorem sleptMs_append (a b : Trace) : sleptMs (a ++ b) = sleptMs a + sleptMs b := by
  induction a with
  | nil => simp [sleptMs]
  | cons e a ih =>
    obtain ⟨c, r⟩ := e
    cases c <;> simp [sleptMs, ih, Nat.add_assoc]

/-! ## Traces: the events of a readiness wait -/

theorem busyPolls_calls (p : Nat) (rs : List (Resp × Resp)) :
    ∀ e ∈ busyPolls p rs, e.call = .get_Busy p ∨ e.call = .Sleep 50 := by
  induction rs with
  | nil => simp [busyPolls]
  | cons q rs ih =>
    intro e he
    simp only [busyPolls, List.mem_cons] at he
    rcases he with rfl | rfl | he
    · exact Or.inl rfl
    · exact Or.inr rfl
    · exact ih e he

theorem isWait_calls {n p : Nat} {w : Trace} (hw : IsWait n p w) :
    ∀ e ∈ w, e.call = .get_Busy p ∨ e.call = .Sleep 50 := by
  obtain ⟨rs, tail, rfl, -, hend⟩ := hw
  intro e he
  rcases List.mem_append.1 he with he | he
  · exact busyPolls_calls p rs e he
  · rcases hend with ⟨-, rfl⟩ | ⟨-, r, rfl, -⟩
    · simp at he
    · simp at he; subst he; exact Or.inl rfl

theorem wait_navUrls {p : Nat} {w : Trace}
    (hw : ∀ e ∈ w, e.call = .get_Busy p ∨ e.call = .Sleep 50) : navUrls w = [] := by
  simp only [navUrls, List.filterMap_eq_nil_iff]
  intro e he
  rcases hw e he with h | h <;> simp [h, callUrl]

theorem wait_countCalls {p : Nat} {w : Trace} (f : Call → Bool)
    (hf1 : f (.get_Busy p) = false) (hf2 : f (.Sleep 50) = false)
    (hw : ∀ e ∈ w, e.call = .get_Busy p ∨ e.call = .Sleep 50) : countCalls f w = 0 := by
  simp only [countCalls, List.countP_eq_zero]
  intro e he
  rcases hw e he with h | h <;> simp [h, hf1, hf2]

theorem wait_countCreated {p : Nat} {w : Trace}
    (hw : ∀ e ∈ w, e.call = .get_Busy p ∨ e.call = .Sleep 50) : countCreated w = 0 := by
  simp only [countCreated, List.countP_eq_zero]
  intro e he
  rcases hw e he with h | h <;> simp [h, isCreate]

theorem wait_cnOk {p : Nat} {w : Trace}
    (hw : ∀ e ∈ w, e.call = .get_Busy p ∨ e.call = .Sleep 50) : cnOk w := by
  intro e he
  rcases hw e he with h | h <;> simp [h, isCreate, isNav]

theorem wait_lifecycle {p : Nat} {w : Trace}
    (hw : ∀ e ∈ w, e.call = .get_Busy p ∨ e.call = .Sleep 50) :
    lifecycle (some p) w = some (some p) := by
  induction w with
  | nil => rfl
  | cons e w ih =>
    have h1 : lifeStep (some p) e = some (some p) := by
      rcases hw e (List.mem_cons_self _ _) with h | h <;> simp [lifeStep, h]
    simp only [lifecycle, h1]
    exact ih (fun x hx => hw x (List.mem_cons_of_mem _ hx))

/-! ## Traces: navigation requests on one instance -/

theorem navCalls_mem (ie : Nat) (urls : List String) :
    ∀ c ∈ navCalls ie urls, ∃ u fl, c = .Navigate2 ie u fl := by
  intro c hc
  cases urls with
  | nil => simp [navCalls] at hc
  | cons u0 rest =>
    simp only [navCalls, List.mem_cons, List.mem_map] at hc
    rcases hc with rfl | ⟨u, -, rfl⟩
    · exact ⟨u0, none, rfl⟩
    · exact ⟨u, some 0x800, rfl⟩

theorem navCalls_urls (ie : Nat) (urls : List String) :
    (navCalls ie urls).filterMap callUrl = urls := by
  cases urls with
  | nil => rfl
  | cons u0 rest =>
    simp only [navCalls, List.filterMap_cons, callUrl, List.filterMap_map]
    congr 1
    induction rest with
    | nil => rfl
    | cons u us ih => simp [List.filterMap_cons, callUrl, ih]

theorem navUrls_of_calls {t : Trace} {cs : List Call} (h : t.map (fun e => e.call) = cs) :
    navUrls t = cs.filterMap callUrl := by
  subst h
  simp [navUrls, List.filterMap_map, Function.comp_def]

theorem navs_on {ie : Nat} {urls : List String} {navs : Trace}
    (h : navs.map (fun e => e.call) = navCalls ie urls) :
    ∀ e ∈ navs, ∃ u fl, e.call = .Navigate2 ie u fl := by
  intro e he
  exact navCalls_mem ie urls e.call (h ▸ List.mem_map_of_mem (fun e => e.call) he)

theorem navs_countCalls {ie : Nat} {navs : Trace} (f : Call → Bool)
    (hf : ∀ u fl, f (.Navigate2 ie u fl) = false)
    (hn : ∀ e ∈ navs, ∃ u fl, e.call = .Navigate2 ie u fl) : countCalls f navs = 0 := by
  simp only [countCalls, List.countP_eq_zero]
  intro e he
  obtain ⟨u, fl, h⟩ := hn e he
  simp [h, hf]

theorem navs_countCreated {ie : Nat} {navs : Trace}
    (hn : ∀ e ∈ navs, ∃ u fl, e.call = .Navigate2 ie u fl) : countCreated navs = 0 := by
  simp only [countCreated, List.countP_eq_zero]
  intro e he
  obtain ⟨u, fl, h⟩ := hn e he
  simp [h, isCreate]

theorem navs_lifecycle {ie : Nat} {navs : Trace}
    (hn : ∀ e ∈ navs, ∃ u fl, e.call = .Navigate2 ie u fl) :
    lifecycle (some ie) navs = some (some ie) := by
  induction navs with
  | nil => rfl
  | cons e w ih =>
    have h1 : lifeStep (some ie) e = some (some ie) := by
      obtain ⟨u, fl, h⟩ := hn e (List.mem_cons_self _ _)
      simp [lifeStep, h]
    simp only [lifecycle, h1]
    exact ih (fun x hx => hn x (List.mem_cons_of_mem _ hx))

theorem allOk_cnOk {t : Trace} (h : allOk t) : cnOk t := fun e he _ => h e he


/-! ## Facts about complete Split-mode rounds -/

theorem SplitBlocks.blocks_cnOk {urls : List String} {t : Trace} (h : SplitBlocks urls t) : cnOk t := by
  induction h with
  | nil => exact cnOk_nil
  | cons u us r v n rel w t h1 h2 h3 _ ih =>
    simp only [cnOk_cons, cnOk_append, isCreate, isNav, Bool.or_false, Bool.or_true,
      Bool.false_eq_true, false_implies, true_and, forall_const, Bool.or_self]
    exact ⟨h1, h2, wait_cnOk (isWait_calls h3), ih⟩

theorem SplitBlocks.blocks_navUrls {urls : List String} {t : Trace} (h : SplitBlocks urls t) :
    navUrls t = urls := by
  induction h with
  | nil => rfl
  | cons u us r v n rel w t h1 h2 h3 _ ih =>
    simp [navUrls_cons, navUrls_append, callUrl, wait_navUrls (isWait_calls h3), ih]

theorem SplitBlocks.blocks_countCreate {urls : List String} {t : Trace} (h : SplitBlocks urls t) :
    countCalls isCreate t = urls.length := by
  induction h with
  | nil => rfl
  | cons u us r v n rel w t h1 h2 h3 _ ih =>
    simp [countCalls_cons, countCalls_append, isCreate,
      wait_countCalls isCreate rfl rfl (isWait_calls h3), ih]

theorem SplitBlocks.blocks_countCreated {urls : List String} {t : Trace} (h : SplitBlocks urls t) :
    countCreated t = urls.length := by
  induction h with
  | nil => rfl
  | cons u us r v n rel w t h1 h2 h3 _ ih =>
    simp [countCreated_cons, countCreated_append, isCreate, h1,
      wait_countCreated (isWait_calls h3), ih]

theorem SplitBlocks.blocks_countRelease {urls : List String} {t : Trace} (h : SplitBlocks urls t) :
    countCalls isRelease t = urls.length := by
  induction h with
  | nil => rfl
  | cons u us r v n rel w t h1 h2 h3 _ ih =>
    simp [countCalls_cons, countCalls_append, isRelease,
      wait_countCalls isRelease rfl rfl (isWait_calls h3), ih]

theorem SplitBlocks.blocks_lifecycle {urls : List String} {t : Trace} (h : SplitBlocks urls t) :
    lifecycle none t = some none := by
  induction h with
  | nil => rfl
  | cons u us r v n rel w t h1 h2 h3 _ ih =>
    simp [lifecycle, lifeStep, h1, lifecycle_append, wait_lifecycle (isWait_calls h3), ih]

/-! ## A trace has at most one failing creation or navigation -/

theorem unique_failure {A B pre post : Trace} {x e : Event} (hA : cnOk A)
    (hB : ∀ y ∈ B, (isCreate y.call || isNav y.call) = false)
    (he1 : (isCreate e.call || isNav e.call) = true) (he2 : FAILED e.resp.hr = true)
    (h : A ++ x :: B = pre ++ e :: post) : pre = A ∧ e = x ∧ post = B := by
  induction A generalizing pre with
  | nil =>
    cases pre with
    | nil => simp at h; exact ⟨rfl, h.1.symm, h.2.symm⟩
    | cons p pre =>
      simp at h
      have := hB e (h.2 ▸ List.mem_append_right _ (List.mem_cons_self _ _))
      simp [he1] at this
  | cons a A ih =>
    cases pre with
    | nil =>
      simp at h
      have := hA a (List.mem_cons_self _ _)
      rw [h.1] at this
      simp [he1, he2] at this
    | cons p pre =>
      simp at h
      obtain ⟨h1, h2, h3⟩ := ih (fun y hy => hA y (List.mem_cons_of_mem _ hy)) h.2
      exact ⟨by rw [h.1, h1], h2, h3⟩

theorem no_failure_of_cnOk {t pre post : Trace} {e : Event} (ht : cnOk t)
    (he1 : (isCreate e.call || isNav e.call) = true) (he2 : FAILED e.resp.hr = true)
    (h : t = pre ++ e :: post) : False := by
  have := ht e (h ▸ List.mem_append_right _ (List.mem_cons_self _ _)) he1
  simp [he2] at this


/-! ## Properties of the outcomes of `open_urls_in_one_window` -/

theorem countCalls_nil (p : Call → Bool) : countCalls p [] = 0 := rfl

theorem countCreated_nil : countCreated [] = 0 := rfl

theorem navUrls_nil : navUrls [] = [] := rfl

theorem OneWindowRun.navs_urls {ie : Nat} {navs : Trace} {pre : List String} {u : String}
    {fl : Option Int}
    (h : navs.map (fun e => e.call) ++ [.Navigate2 ie u fl] = navCalls ie (pre ++ [u])) :
    navUrls navs = pre ∧ ∀ e ∈ navs, ∃ u fl, e.call = .Navigate2 ie u fl := by
  constructor
  · have h2 := congrArg (List.filterMap callUrl) h
    rw [navCalls_urls, List.filterMap_append, ← navUrls_of_calls rfl] at h2
    simpa [callUrl] using h2
  · intro e he
    apply navCalls_mem ie (pre ++ [u]) e.call
    rw [← h]
    exact List.mem_append_left _ (List.mem_map_of_mem (fun e => e.call) he)

theorem OneWindowRun.one_result {urls : List String} {hr : HRESULT} {t : Trace}
    (h : OneWindowRun urls hr t) :
    (FAILED hr = false ↔ cnOk t) ∧ (FAILED hr = false → hr = S_OK) := by
  cases h with
  | create_failed r s hf =>
    refine ⟨⟨fun h => by simp [hf] at h, fun h => ?_⟩, fun h => by simp [hf] at h⟩
    have := h ⟨.CoCreateInstance, r⟩ (List.mem_cons_self _ _) rfl
    simp [hf] at this
  | nav_failed r v f s rel navs fl msg pre u post h1 h2 h3 h4 h5 =>
    refine ⟨⟨fun h => by simp [h5] at h, fun h => ?_⟩, fun h => by simp [h5] at h⟩
    have := h ⟨.Navigate2 r.inst u fl, f⟩ (by simp) rfl
    simp [h5] at this
  | success r v rel navs w h1 h2 h3 h4 =>
    refine ⟨⟨fun _ => ?_, fun _ => rfl⟩, fun _ => rfl⟩
    simp only [cnOk_cons, cnOk_append, isCreate, isNav, Bool.or_false, Bool.or_true,
      Bool.false_eq_true, false_implies, true_and, forall_const, Bool.or_self, and_true]
    exact ⟨h1, allOk_cnOk h3, wait_cnOk (isWait_calls h4), cnOk_nil⟩

theorem OneWindowRun.one_ownership {urls : List String} {hr : HRESULT} {t : Trace}
    (h : OneWindowRun urls hr t) :
    lifecycle none t = some none ∧ countCalls isRelease t = countCreated t := by
  cases h with
  | create_failed r s hf =>
    simp [lifecycle, lifeStep, hf, countCalls_cons, countCreated_cons, isRelease, isCreate,
      countCalls, countCreated]
  | nav_failed r v f s rel navs fl msg pre u post h1 h2 h3 h4 h5 =>
    have hn := (OneWindowRun.navs_urls h3).2
    simp [lifecycle, lifeStep, h1, lifecycle_append, navs_lifecycle hn, countCalls_cons,
      countCalls_append, countCreated_cons, countCreated_append, isRelease, isCreate,
      navs_countCalls isRelease (fun _ _ => rfl) hn, navs_countCreated hn, countCalls_nil,
      countCreated_nil]
  | success r v rel navs w h1 h2 h3 h4 =>
    have hn := navs_on h2
    have hw := isWait_calls h4
    simp [lifecycle, lifeStep, h1, lifecycle_append, navs_lifecycle hn, wait_lifecycle hw,
      countCalls_cons, countCalls_append, countCreated_cons, countCreated_append, isRelease,
      isCreate, navs_countCalls isRelease (fun _ _ => rfl) hn, navs_countCreated hn,
      wait_countCalls isRelease rfl rfl hw, wait_countCreated hw, countCalls_nil,
      countCreated_nil]

theorem take_prefix_succ (pre : List String) (u : String) (post : List String) :
    (pre ++ u :: post).take (pre.length + 1) = pre ++ [u] := by
  induction pre with
  | nil => simp
  | cons a pre ih => simpa using ih

theorem OneWindowRun.one_abort {urls : List String} {hr : HRESULT} {t : Trace}
    (h : OneWindowRun urls hr t) (pre : Trace) (e : Event) (post : Trace)
    (ht : t = pre ++ e :: post) (he1 : (isCreate e.call || isNav e.call) = true)
    (he2 : FAILED e.resp.hr = true) :
    (∀ x ∈ post, (isCreate x.call || isNav x.call) = false) ∧ hr = e.resp.hr ∧
    (isNav e.call = true → navUrls t = urls.take ((navUrls pre).length + 1)) ∧
    (isCreate e.call = true → navUrls t = urls.take (countCalls isCreate pre)) := by
  cases h with
  | create_failed r s hf =>
    obtain ⟨rfl, rfl, rfl⟩ := unique_failure (A := []) cnOk_nil
      (by simp [isCreate, isNav]) he1 he2 ht
    simp [isCreate, isNav, navUrls_cons, navUrls_nil, callUrl, countCalls_nil]
  | nav_failed r v f s rel navs fl msg upre u upost h1 h2 h3 h4 h5 =>
    obtain ⟨hn1, hn2⟩ := OneWindowRun.navs_urls h3
    have hA : cnOk (⟨.CoCreateInstance, r⟩ :: ⟨.put_Visible r.inst VARIANT_TRUE, v⟩ :: navs) := by
      simp only [cnOk_cons, isCreate, isNav, Bool.or_false, Bool.or_true,
        Bool.false_eq_true, false_implies, true_and, forall_const, Bool.or_self]
      exact ⟨h1, allOk_cnOk h4⟩
    obtain ⟨rfl, rfl, rfl⟩ := unique_failure hA
      (B := [⟨.show_error f.hr msg, s⟩, ⟨.Release r.inst, rel⟩])
      (by simp [isCreate, isNav]) he1 he2 (by simpa using ht)
    subst h2
    simp [isCreate, isNav, navUrls_cons, navUrls_append, navUrls_nil, callUrl, hn1,
      take_prefix_succ]
  | success r v rel navs w h1 h2 h3 h4 =>
    exact (no_failure_of_cnOk
      ((OneWindowRun.one_result (OneWindowRun.success r v rel navs w h1 h2 h3 h4)).1.1 rfl)
      he1 he2 ht).elim

/-! ## Properties of the outcomes of `open_urls_in_split_windows` -/

theorem SplitRun.split_result {urls : List String} {hr : HRESULT} {t : Trace}
    (h : SplitRun urls hr t) :
    (FAILED hr = false ↔ cnOk t) ∧ (FAILED hr = false → hr = S_OK) := by
  cases h with
  | success t hb => exact ⟨⟨fun _ => hb.blocks_cnOk, fun _ => rfl⟩, fun _ => rfl⟩
  | create_failed pre u post t r s hu hb hf =>
    refine ⟨⟨fun h => by simp [hf] at h, fun h => ?_⟩, fun h => by simp [hf] at h⟩
    have := h ⟨.CoCreateInstance, r⟩ (by simp) rfl
    simp [hf] at this
  | nav_failed pre u post t r v f s rel hu hb h1 h2 =>
    refine ⟨⟨fun h => by simp [h2] at h, fun h => ?_⟩, fun h => by simp [h2] at h⟩
    have := h ⟨.Navigate2 r.inst u none, f⟩ (by simp) rfl
    simp [h2] at this

theorem SplitRun.split_ownership {urls : List String} {hr : HRESULT} {t : Trace}
    (h : SplitRun urls hr t) :
    lifecycle none t = some none ∧ countCalls isRelease t = countCreated t := by
  cases h with
  | success t hb => exact ⟨hb.blocks_lifecycle, by rw [hb.blocks_countRelease, hb.blocks_countCreated]⟩
  | create_failed pre u post t r s hu hb hf =>
    simp [lifecycle, lifeStep, hf, lifecycle_append, hb.blocks_lifecycle, countCalls_cons,
      countCalls_append, countCreated_cons, countCreated_append, isRelease, isCreate,
      hb.blocks_countRelease, hb.blocks_countCreated, countCalls_nil, countCreated_nil]
  | nav_failed pre u post t r v f s rel hu hb h1 h2 =>
    simp [lifecycle, lifeStep, h1, lifecycle_append, hb.blocks_lifecycle, countCalls_cons,
      countCalls_append, countCreated_cons, countCreated_append, isRelease, isCreate,
      hb.blocks_countRelease, hb.blocks_countCreated, countCalls_nil, countCreated_nil]

theorem SplitRun.split_abort {urls : List String} {hr : HRESULT} {t : Trace}
    (h : SplitRun urls hr t) (pre : Trace) (e : Event) (post : Trace)
    (ht : t = pre ++ e :: post) (he1 : (isCreate e.call || isNav e.call) = true)
    (he2 : FAILED e.resp.hr = true) :
    (∀ x ∈ post, (isCreate x.call || isNav x.call) = false) ∧ hr = e.resp.hr ∧
    (isNav e.call = true → navUrls t = urls.take ((navUrls pre).length + 1)) ∧
    (isCreate e.call = true → navUrls t = urls.take (countCalls isCreate pre)) := by
  cases h with
  | success t hb => exact (no_failure_of_cnOk hb.blocks_cnOk he1 he2 ht).elim
  | create_failed upre u upost t r s hu hb hf =>
    obtain ⟨rfl, rfl, rfl⟩ := unique_failure hb.blocks_cnOk
      (B := [⟨.show_error r.hr "failed to create InternetExplorer instance", s⟩])
      (by simp [isCreate, isNav]) he1 he2 ht
    subst hu
    simp [isCreate, isNav, navUrls_cons, navUrls_append, navUrls_nil, callUrl, hb.blocks_navUrls,
      hb.blocks_countCreate]
  | nav_failed upre u upost t r v f s rel hu hb h1 h2 =>
    have hA : cnOk (t ++ [⟨.CoCreateInstance, r⟩, ⟨.put_Visible r.inst VARIANT_TRUE, v⟩]) := by
      simp only [cnOk_cons, cnOk_append, isCreate, isNav, Bool.or_false, Bool.or_true,
        Bool.false_eq_true, false_implies, true_and, forall_const, Bool.or_self]
      exact ⟨hb.blocks_cnOk, h1, cnOk_nil⟩
    obtain ⟨rfl, rfl, rfl⟩ := unique_failure hA
      (B := [⟨.show_error f.hr "failed to navigate URL", s⟩, ⟨.Release r.inst, rel⟩])
      (by simp [isCreate, isNav]) he1 he2 (by simpa using ht)
    subst hu
    simp [isCreate, isNav, navUrls_cons, navUrls_append, navUrls_nil, callUrl, hb.blocks_navUrls,
      take_prefix_succ]

/-! ## `wWinMain` -/

theorem scan_args_spec (args : List String) :
    ∀ (split : Bool) (urls : List String),
      scan_args args split urls =
        (split || args.contains "--split", urls ++ args.filter (fun a => a ≠ "--split")) := by
  induction args with
  | nil => intro split urls; simp [scan_args]
  | cons a rest ih =>
    intro split urls
    by_cases h : a = "--split"
    · simp [scan_args, h, ih]
    · have h2 : ¬ "--split" = a := fun h3 => h h3.symm
      simp [scan_args, h, ih, h2]

theorem parse_command_line_ne_nil (argv : Option (List String)) :
    (parse_command_line argv).2 ≠ [] := by
  unfold parse_command_line
  simp only
  split <;> simp_all

theorem wWinMain_init_failed (fuel : Nat) (argv : Option (List String)) (env : Env)
    (h : FAILED (initResult env argv) = true) :
    wWinMain fuel argv env = some (1,
      if argv.isSome then
        record env (record env (startup env argv)
          (.show_error (initResult env argv) "CoInitialize failed")) .LocalFree
      else record env (startup env argv)
          (.show_error (initResult env argv) "CoInitialize failed")) := by
  unfold initResult at h
  simp only [wWinMain, h, if_true, startup, initResult]
  rfl

theorem wWinMain_init_ok (fuel : Nat) (argv : Option (List String)) (env : Env)
    (h : FAILED (initResult env argv) = false) :
    wWinMain fuel argv env =
      (selected_run fuel argv env).map
        (fun p => (if FAILED p.1 = true then 2 else 0, teardown env argv p.2)) := by
  unfold initResult at h
  have h1 : wWinMain fuel argv env =
      (match selected_run fuel argv env with
       | none => none
       | some (hr, h3) =>
         if FAILED hr = true then some (2, teardown env argv h3)
         else some (0, teardown env argv h3)) := by
    simp only [wWinMain, h, Bool.false_eq_true, if_false]
    rfl
  rw [h1]
  cases selected_run fuel argv env with
  | none => rfl
  | some p =>
    obtain ⟨hr, h3⟩ := p
    by_cases hf : FAILED hr = true <;> simp [hf]


theorem selected_run_spec (fuel : Nat) (argv : Option (List String)) (env : Env)
    (hfuel : 41 ≤ fuel) :
    ∃ hr tr, selected_run fuel argv env = some (hr, startup env argv ++ tr) ∧
      RunOutcome (parse_command_line argv).1 (parse_command_line argv).2 hr tr := by
  have hne := parse_command_line_ne_nil argv
  obtain ⟨u0, rest, hu⟩ : ∃ u0 rest, (parse_command_line argv).2 = u0 :: rest := by
    cases h : (parse_command_line argv).2 with
    | nil => exact (hne h).elim
    | cons u0 rest => exact ⟨u0, rest, rfl⟩
  by_cases hc : (parse_command_line argv).1 = true ∧ 2 ≤ (parse_command_line argv).2.length
  · obtain ⟨hr, tr, h1, h2⟩ :=
      open_urls_in_split_windows_spec fuel env (startup env argv) u0 rest hfuel
    refine ⟨hr, tr, ?_, ?_⟩
    · have hc2 : ((parse_command_line argv).1 &&
          decide (2 ≤ (parse_command_line argv).2.length)) = true := by simpa using hc
      simp only [selected_run, hc2, if_true]
      rw [hu]; exact h1
    · simp only [RunOutcome, hc, and_self, if_true]
      rw [hu]; exact h2
  · obtain ⟨hr, tr, h1, h2⟩ :=
      open_urls_in_one_window_spec fuel env (startup env argv) u0 rest hfuel
    refine ⟨hr, tr, ?_, ?_⟩
    · have hc2 : ((parse_command_line argv).1 &&
          decide (2 ≤ (parse_command_line argv).2.length)) = false := by
        simpa using hc
      simp only [selected_run, hc2, Bool.false_eq_true, if_false]
      rw [hu]; exact h1
    · simp only [RunOutcome, hc, if_false]
      rw [hu]; exact h2

theorem wWinMain_cases (fuel : Nat) (argv : Option (List String)) (env : Env)
    (hfuel : 41 ≤ fuel) :
    (FAILED (initResult env argv) = true ∧ ∃ s0 r0 s s1, r0.hr = initResult env argv ∧
      wWinMain fuel argv env = some (1,
        parseReport argv s0 ++ ⟨.CoInitialize, r0⟩ ::
          ⟨.show_error r0.hr "CoInitialize failed", s⟩ :: freeArgv argv s1)) ∨
    (FAILED (initResult env argv) = false ∧ ∃ s0 r0 u s1 hr tr, r0.hr = initResult env argv ∧
      selected_run fuel argv env = some (hr, startup env argv ++ tr) ∧
      RunOutcome (parse_command_line argv).1 (parse_command_line argv).2 hr tr ∧
      wWinMain fuel argv env = some (if FAILED hr = true then 2 else 0,
        parseReport argv s0 ++ ⟨.CoInitialize, r0⟩ ::
          (tr ++ ⟨ Call.CoUninitialize, u⟩ :: freeArgv argv s1))) := by
  by_cases hi : FAILED (initResult env argv) = true
  · refine Or.inl ⟨hi, ?_⟩
    rw [wWinMain_init_failed fuel argv env hi]
    cases argv with
    | none =>
      exact ⟨env [] (.show_error E_FAIL "failed to parse command line"), _,
        env (startup env none) (.show_error (initResult env none) "CoInitialize failed"),
        env [] .LocalFree, rfl, by simp [parseReport, freeArgv, startup, record, initResult]⟩
    | some l =>
      exact ⟨env [] .LocalFree, _,
        env (startup env (some l)) (.show_error (initResult env (some l)) "CoInitialize failed"),
        env (record env (startup env (some l))
          (.show_error (initResult env (some l)) "CoInitialize failed")) .LocalFree,
        rfl, by simp [parseReport, freeArgv, startup, record, initResult]⟩
  · have hi2 : FAILED (initResult env argv) = false := by simpa using hi
    refine Or.inr ⟨hi2, ?_⟩
    obtain ⟨hr, tr, h1, h2⟩ := selected_run_spec fuel argv env hfuel
    rw [wWinMain_init_ok fuel argv env hi2, h1]
    cases argv with
    | none =>
      exact ⟨env [] (.show_error E_FAIL "failed to parse command line"), _,
        env (startup env none ++ tr) Call.CoUninitialize,
        env [] .LocalFree, hr, tr, rfl, rfl, h2,
        by simp [parseReport, freeArgv, startup, record, initResult, teardown]⟩
    | some l =>
      exact ⟨env [] .LocalFree, _,
        env (startup env (some l) ++ tr) Call.CoUninitialize,
        env (record env (startup env (some l) ++ tr) Call.CoUninitialize) .LocalFree,
        hr, tr, rfl, rfl, h2,
        by simp [parseReport, freeArgv, startup, record, initResult, teardown]⟩



/-! ## Facts used for `wWinMain` -/

theorem RunOutcome.run_result {split : Bool} {urls : List String} {hr : HRESULT} {tr : Trace}
    (h : RunOutcome split urls hr tr) :
    (FAILED hr = false ↔ cnOk tr) ∧ (FAILED hr = false → hr = S_OK) := by
  unfold RunOutcome at h
  split at h
  · exact h.split_result
  · exact h.one_result

theorem busyPolls_isRunCall {n p : Nat} {w : Trace} (hw : IsWait n p w) :
    ∀ e ∈ w, isRunCall e.call = true := by
  intro e he
  rcases isWait_calls hw e he with h | h <;> simp [h, isRunCall]

theorem SplitBlocks.blocks_isRunCall {urls : List String} {t : Trace}
    (h : SplitBlocks urls t) : ∀ e ∈ t, isRunCall e.call = true := by
  induction h with
  | nil => simp
  | cons u us r v n rel w t h1 h2 h3 _ ih =>
    intro e he
    simp only [List.mem_cons, List.mem_append] at he
    rcases he with rfl | rfl | rfl | he | rfl | he
    · rfl
    · rfl
    · rfl
    · exact busyPolls_isRunCall h3 e he
    · rfl
    · exact ih e he

theorem RunOutcome.run_isRunCall {split : Bool} {urls : List String} {hr : HRESULT}
    {tr : Trace} (h : RunOutcome split urls hr tr) : ∀ e ∈ tr, isRunCall e.call = true := by
  unfold RunOutcome at h
  split at h
  · cases h with
    | success t hb => exact hb.blocks_isRunCall
    | create_failed pre u post t r s hu hb hf =>
      intro e he
      simp only [List.mem_cons, List.mem_append, List.not_mem_nil, or_false] at he
      rcases he with he | rfl | rfl
      · exact hb.blocks_isRunCall e he
      · rfl
      · rfl
    | nav_failed pre u post t r v f s rel hu hb g1 g2 =>
      intro e he
      simp only [List.mem_cons, List.mem_append, List.not_mem_nil, or_false] at he
      rcases he with he | rfl | rfl | rfl | rfl | rfl
      · exact hb.blocks_isRunCall e he
      · rfl
      · rfl
      · rfl
      · rfl
      · rfl
  · cases h with
    | create_failed r s hf =>
      intro e he
      simp only [List.mem_cons, List.not_mem_nil, or_false] at he
      rcases he with rfl | rfl
      · rfl
      · rfl
    | nav_failed r v f s rel navs fl msg pre u post g1 g2 g3 g4 g5 =>
      intro e he
      simp only [List.mem_cons, List.mem_append, List.not_mem_nil, or_false] at he
      rcases he with rfl | rfl | he | rfl | rfl | rfl
      · rfl
      · rfl
      · obtain ⟨u, fl, hc⟩ := (OneWindowRun.navs_urls g3).2 e he
        simp [hc, isRunCall]
      · rfl
      · rfl
      · rfl
    | success r v rel navs w g1 g2 g3 g4 =>
      intro e he
      simp only [List.mem_cons, List.mem_append, List.not_mem_nil, or_false] at he
      rcases he with rfl | rfl | he | he | rfl
      · rfl
      · rfl
      · obtain ⟨u, fl, hc⟩ := navs_on g2 e he
        simp [hc, isRunCall]
      · exact busyPolls_isRunCall g4 e he
      · rfl

theorem countCalls_eq_zero {p : Call → Bool} {t : Trace}
    (h : ∀ e ∈ t, p e.call = false) : countCalls p t = 0 := by
  simp only [countCalls, List.countP_eq_zero]
  intro e he
  simp [h e he]

theorem countCalls_parseReport (p : Call → Bool) (argv : Option (List String)) (s : Resp)
    (hp : ∀ hr m, p (.show_error hr m) = false) : countCalls p (parseReport argv s) = 0 := by
  apply countCalls_eq_zero
  intro e he
  unfold parseReport at he
  split at he
  · simp at he; subst he; exact hp _ _
  · simp at he

theorem countCalls_freeArgv (p : Call → Bool) (argv : Option (List String)) (s : Resp)
    (hp : p .LocalFree = false) : countCalls p (freeArgv argv s) = 0 := by
  apply countCalls_eq_zero
  intro e he
  unfold freeArgv at he
  split at he
  · simp at he; subst he; exact hp
  · simp at he

theorem mem_parseReport {argv : Option (List String)} {s : Resp} {e : Event}
    (he : e ∈ parseReport argv s) : ∃ hr m, e.call = .show_error hr m := by
  unfold parseReport at he
  split at he
  · simp at he; subst he; exact ⟨_, _, rfl⟩
  · simp at he

theorem mem_freeArgv {argv : Option (List String)} {s : Resp} {e : Event}
    (he : e ∈ freeArgv argv s) : e.call = .LocalFree := by
  unfold freeArgv at he
  split at he
  · simp at he; subst he; rfl
  · simp at he

theorem countCalls_run {p : Call → Bool} {split : Bool} {urls : List String} {hr : HRESULT}
    {tr : Trace} (h : RunOutcome split urls hr tr)
    (hp : ∀ c, isRunCall c = true → p c = false) : countCalls p tr = 0 :=
  countCalls_eq_zero (fun e he => hp e.call (h.run_isRunCall e he))

theorem parse_command_line_urls (l : List String) :
    (parse_command_line (some l)).2 =
      if (l.drop 1).filter (fun a => a ≠ "--split") = [] then ["about:blank"]
      else (l.drop 1).filter (fun a => a ≠ "--split") := by
  by_cases hl : 1 < l.length
  · by_cases hf : (l.drop 1).filter (fun a => a ≠ "--split") = []
    · simp only [parse_command_line, hl, if_true, scan_args_spec, List.nil_append, hf,
        List.isEmpty_nil]
    · have hf2 : ((l.drop 1).filter (fun a => a ≠ "--split")).isEmpty = false := by
        cases hx : (l.drop 1).filter (fun a => a ≠ "--split") with
        | nil => exact (hf hx).elim
        | cons a b => rfl
      simp only [parse_command_line, hl, if_true, scan_args_spec, List.nil_append, hf, hf2,
        if_false, Bool.false_eq_true]
  · have hd : l.drop 1 = [] := by
      apply List.drop_eq_nil_of_le
      omega
    simp [parse_command_line, hl, hd]

theorem busyPolls_sleptMs (p : Nat) (rs : List (Resp × Resp)) :
    sleptMs (busyPolls p rs) = 50 * rs.length := by
  induction rs with
  | nil => rfl
  | cons q rs ih => simp [busyPolls, sleptMs, ih]; omega

theorem busyPolls_countSleep (p : Nat) (rs : List (Resp × Resp)) :
    countCalls isSleep (busyPolls p rs) = rs.length := by
  induction rs with
  | nil => rfl
  | cons q rs ih => simp [busyPolls, countCalls_cons, isSleep, ih]

theorem busyPolls_countQuery (p : Nat) (rs : List (Resp × Resp)) :
    countCalls isQuery (busyPolls p rs) = rs.length := by
  induction rs with
  | nil => rfl
  | cons q rs ih => simp [busyPolls, countCalls_cons, isQuery, ih]

theorem isWait_counts {n p : Nat} {w : Trace} (hw : IsWait n p w) :
    ∃ k, k ≤ n ∧ sleptMs w = 50 * k ∧ countCalls isSleep w = k ∧
      countCalls isQuery w = (if k < n then k + 1 else k) := by
  obtain ⟨rs, tail, rfl, -, hend⟩ := hw
  rcases hend with ⟨h1, rfl⟩ | ⟨h1, r, rfl, -⟩
  · refine ⟨rs.length, by omega, ?_, ?_, ?_⟩
    · simp [busyPolls_sleptMs]
    · simp [busyPolls_countSleep]
    · simp [busyPolls_countQuery, h1]
  · refine ⟨rs.length, by omega, ?_, ?_, ?_⟩
    · simp [sleptMs_append, busyPolls_sleptMs, sleptMs]
    · simp [countCalls_append, busyPolls_countSleep, countCalls_cons, isSleep, countCalls_nil]
    · simp [countCalls_append, busyPolls_countQuery, countCalls_cons, isQuery, countCalls_nil,
        h1]

theorem wWinMain_selected (fuel : Nat) (argv : Option (List String)) (env : Env)
    (hi : FAILED (initResult env argv) = false) :
    wWinMain fuel argv env =
      (if (parse_command_line argv).1 = true ∧ 2 ≤ (parse_command_line argv).2.length then
        open_urls_in_split_windows fuel (parse_command_line argv).2 env (startup env argv)
      else
        open_urls_in_one_window fuel (parse_command_line argv).2 env (startup env argv)).map
      (fun p => (if FAILED p.1 = true then 2 else 0, teardown env argv p.2)) := by
  rw [wWinMain_init_ok fuel argv env hi]
  congr 1
  unfold selected_run
  by_cases hc : (parse_command_line argv).1 = true ∧ 2 ≤ (parse_command_line argv).2.length
  · have hc2 : ((parse_command_line argv).1 &&
        decide (2 ≤ (parse_command_line argv).2.length)) = true := by simpa using hc
    rw [if_pos hc2, if_pos hc]
  · have hc2 : ((parse_command_line argv).1 &&
        decide (2 ≤ (parse_command_line argv).2.length)) = false := by simpa using hc
    rw [if_neg (by simp [hc2]), if_neg hc]

/-! ## The claims -/

/-- The run of C1's witness: both URLs are navigated, and its premise `cnOk` holds. -/
theorem consolidated_trace_example :
    open_urls_in_one_window 41 ["a", "b"] envOk [] = some (S_OK,
      [⟨.CoCreateInstance, respOk⟩, ⟨.put_Visible 7 VARIANT_TRUE, respOk⟩,
       ⟨.Navigate2 7 "a" none, respOk⟩, ⟨.Navigate2 7 "b" (some 0x800), respOk⟩,
       ⟨.get_Busy 7, respOk⟩, ⟨.Release 7, respOk⟩]) ∧
    cnOk [⟨.CoCreateInstance, respOk⟩, ⟨.put_Visible 7 VARIANT_TRUE, respOk⟩,
       ⟨.Navigate2 7 "a" none, respOk⟩, ⟨.Navigate2 7 "b" (some 0x800), respOk⟩,
       ⟨.get_Busy 7, respOk⟩, ⟨.Release 7, respOk⟩] := by
  refine ⟨by decide, ?_⟩
  unfold cnOk
  decide

/-- The run of C2's witness: two complete rounds, and its premise `cnOk` holds. -/
theorem split_trace_example :
    open_urls_in_split_windows 41 ["a", "b"] envOk [] = some (S_OK,
      [⟨.CoCreateInstance, respOk⟩, ⟨.put_Visible 7 VARIANT_TRUE, respOk⟩,
       ⟨.Navigate2 7 "a" none, respOk⟩, ⟨.get_Busy 7, respOk⟩, ⟨.Release 7, respOk⟩,
       ⟨.CoCreateInstance, respOk⟩, ⟨.put_Visible 7 VARIANT_TRUE, respOk⟩,
       ⟨.Navigate2 7 "b" none, respOk⟩, ⟨.get_Busy 7, respOk⟩, ⟨.Release 7, respOk⟩]) ∧
    cnOk [⟨.CoCreateInstance, respOk⟩, ⟨.put_Visible 7 VARIANT_TRUE, respOk⟩,
       ⟨.Navigate2 7 "a" none, respOk⟩, ⟨.get_Busy 7, respOk⟩, ⟨.Release 7, respOk⟩,
       ⟨.CoCreateInstance, respOk⟩, ⟨.put_Visible 7 VARIANT_TRUE, respOk⟩,
       ⟨.Navigate2 7 "b" none, respOk⟩, ⟨.get_Busy 7, respOk⟩, ⟨.Release 7, respOk⟩] := by
  refine ⟨by decide, ?_⟩
  unfold cnOk
  decide

/-- C3. Abort on first failure, in both modes: for every oracle and non-empty URL list, if
an instance creation or a navigation request `e` of the run failed, then no creation and no
navigation follows it in the trace, the run function returns exactly that failing
`HRESULT`; when `e` is a navigation preceded by `i` navigation requests, requests were
issued for exactly the URLs at positions `0..i`; when `e` is a creation preceded by `k`
creations, requests were issued for exactly the URLs at positions `0..k-1` (none at
all when the first creation fails).  And `wWinMain` exits with code 2 whenever a creation
or navigation of its run failed. -/
theorem abort_on_first_failure (fuel : Nat) (env : Env) (h : Trace) (urls : List String)
    (hfuel : 41 ≤ fuel) (hne : urls ≠ []) :
    (∃ hr t, open_urls_in_one_window fuel urls env h = some (hr, h ++ t) ∧
      ∀ pre e post, t = pre ++ e :: post → (isCreate e.call || isNav e.call) = true →
        FAILED e.resp.hr = true →
        (∀ x ∈ post, (isCreate x.call || isNav x.call) = false) ∧
        hr = e.resp.hr ∧ FAILED hr = true ∧
        (isNav e.call = true → navUrls t = urls.take ((navUrls pre).length + 1)) ∧
        (isCreate e.call = true → navUrls t = urls.take (countCalls isCreate pre)) ∧
        (isCreate e.call = true → countCalls isCreate pre = 0 → navUrls t = [])) ∧
    (∃ hr t, open_urls_in_split_windows fuel urls env h = some (hr, h ++ t) ∧
      ∀ pre e post, t = pre ++ e :: post → (isCreate e.call || isNav e.call) = true →
        FAILED e.resp.hr = true →
        (∀ x ∈ post, (isCreate x.call || isNav x.call) = false) ∧
        hr = e.resp.hr ∧ FAILED hr = true ∧
        (isNav e.call = true → navUrls t = urls.take ((navUrls pre).length + 1)) ∧
        (isCreate e.call = true → navUrls t = urls.take (countCalls isCreate pre)) ∧
        (isCreate e.call = true → countCalls isCreate pre = 0 → navUrls t = [])) ∧
    (∀ argv, ∃ code t, wWinMain fuel argv env = some (code, t) ∧
      ((∃ e ∈ t, (isCreate e.call || isNav e.call) = true ∧ FAILED e.resp.hr = true) →
        code = 2)) := by
  obtain ⟨u0, rest, rfl⟩ : ∃ u0 rest, urls = u0 :: rest := by
    cases urls with
    | nil => exact (hne rfl).elim
    | cons u0 rest => exact ⟨u0, rest, rfl⟩
  refine ⟨?_, ?_, ?_⟩
  · obtain ⟨hr, t, h1, h2⟩ := open_urls_in_one_window_spec fuel env h u0 rest hfuel
    refine ⟨hr, t, h1, fun pre e post ht he1 he2 => ?_⟩
    obtain ⟨a1, a2, a3, a4⟩ := h2.one_abort pre e post ht he1 he2
    exact ⟨a1, a2, a2 ▸ he2, a3, a4, fun hc h0 => by rw [a4 hc, h0]; rfl⟩
  · obtain ⟨hr, t, h1, h2⟩ := open_urls_in_split_windows_spec fuel env h u0 rest hfuel
    refine ⟨hr, t, h1, fun pre e post ht he1 he2 => ?_⟩
    obtain ⟨a1, a2, a3, a4⟩ := h2.split_abort pre e post ht he1 he2
    exact ⟨a1, a2, a2 ▸ he2, a3, a4, fun hc h0 => by rw [a4 hc, h0]; rfl⟩
  · intro argv
    rcases wWinMain_cases fuel argv env hfuel with
      ⟨-, s0, r0, s, s1, -, hw⟩ | ⟨-, s0, r0, u, s1, hr, tr, -, -, ho, hw⟩
    · refine ⟨_, _, hw, ?_⟩
      rintro ⟨e, he, hcn, -⟩
      simp only [List.mem_cons, List.mem_append] at he
      rcases he with he | rfl | rfl | he
      · obtain ⟨x, m, hc⟩ := mem_parseReport he
        simp [hc, isCreate, isNav] at hcn
      · simp [isCreate, isNav] at hcn
      · simp [isCreate, isNav] at hcn
      · simp [mem_freeArgv he, isCreate, isNav] at hcn
    · refine ⟨_, _, hw, ?_⟩
      rintro ⟨e, he, hcn, hf⟩
      simp only [List.mem_cons, List.mem_append] at he
      have hfail : FAILED hr = true := by
        by_contra hn
        have hok : cnOk tr := (ho.run_result.1).1 (by simpa using hn)
        rcases he with he | rfl | he | rfl | he
        · obtain ⟨x, m, hc⟩ := mem_parseReport he
          simp [hc, isCreate, isNav] at hcn
        · simp [isCreate, isNav] at hcn
        · have := hok e he hcn
          simp [hf] at this
        · simp [isCreate, isNav] at hcn
        · simp [mem_freeArgv he, isCreate, isNav] at hcn
      simp [hfail]

theorem abort_on_first_failure_witness :
    41 ≤ 41 ∧ ["a", "b"] ≠ [] ∧
    ((∃ hr t, open_urls_in_one_window 41 ["a", "b"] envFailB [] = some (hr, [] ++ t) ∧
      ∀ pre e post, t = pre ++ e :: post → (isCreate e.call || isNav e.call) = true →
        FAILED e.resp.hr = true →
        (∀ x ∈ post, (isCreate x.call || isNav x.call) = false) ∧
        hr = e.resp.hr ∧ FAILED hr = true ∧
        (isNav e.call = true → navUrls t = ["a", "b"].take ((navUrls pre).length + 1)) ∧
        (isCreate e.call = true → navUrls t = ["a", "b"].take (countCalls isCreate pre)) ∧
        (isCreate e.call = true → countCalls isCreate pre = 0 → navUrls t = [])) ∧
    (∃ hr t, open_urls_in_split_windows 41 ["a", "b"] envFailB [] = some (hr, [] ++ t) ∧
      ∀ pre e post, t = pre ++ e :: post → (isCreate e.call || isNav e.call) = true →
        FAILED e.resp.hr = true →
        (∀ x ∈ post, (isCreate x.call || isNav x.call) = false) ∧
        hr = e.resp.hr ∧ FAILED hr = true ∧
        (isNav e.call = true → navUrls t = ["a", "b"].take ((navUrls pre).length + 1)) ∧
        (isCreate e.call = true → navUrls t = ["a", "b"].take (countCalls isCreate pre)) ∧
        (isCreate e.call = true → countCalls isCreate pre = 0 → navUrls t = [])) ∧
    (∀ argv, ∃ code t, wWinMain 41 argv envFailB = some (code, t) ∧
      ((∃ e ∈ t, (isCreate e.call || isNav e.call) = true ∧ FAILED e.resp.hr = true) →
        code = 2))) :=
  ⟨by decide, by decide, abort_on_first_failure 41 envFailB [] ["a", "b"] (by decide) (by decide)⟩

/-- A run in which the navigation at position 1 fails: positions 0 and 1 were requested,
position 2 was not, the instance is released and the failure is returned. -/
theorem abort_example :
    open_urls_in_one_window 41 ["a", "b", "c"] envFailB [] = some (E_FAIL,
      [⟨.CoCreateInstance, respOk⟩, ⟨.put_Visible 7 VARIANT_TRUE, respOk⟩,
       ⟨.Navigate2 7 "a" none, respOk⟩, ⟨.Navigate2 7 "b" (some 0x800), respFail⟩,
       ⟨.show_error E_FAIL "failed to navigate next URL", respOk⟩, ⟨.Release 7, respOk⟩]) ∧
    wWinMain 41 (some ["ie.exe", "a", "b", "c"]) envFailB = some (2,
      [⟨.CoInitialize, respOk⟩,
       ⟨.CoCreateInstance, respOk⟩, ⟨.put_Visible 7 VARIANT_TRUE, respOk⟩,
       ⟨.Navigate2 7 "a" none, respOk⟩, ⟨.Navigate2 7 "b" (some 0x800), respFail⟩,
       ⟨.show_error E_FAIL "failed to navigate next URL", respOk⟩, ⟨.Release 7, respOk⟩,
       ⟨ Call.CoUninitialize, respOk⟩, ⟨.LocalFree, respOk⟩]) := by
  decide

/-- C4. Release exactly once: for every oracle, starting trace and URL list, in either run
function the trace is accepted by the ownership automaton, started and ended without a
live instance: a release is issued only for the instance that is live (created with success and
not yet released), every use of an instance (`put_Visible`, `Navigate2`, `get_Busy`) comes
while it is live, hence before its release, and no instance is live when the function
returns.  The number of `Release` calls equals the number of successful creations. -/
theorem release_exactly_once (fuel : Nat) (env : Env) (h : Trace) (urls : List String)
    (hfuel : 41 ≤ fuel) :
    (∃ hr t, open_urls_in_one_window fuel urls env h = some (hr, h ++ t) ∧
      lifecycle none t = some none ∧ countCalls isRelease t = countCreated t) ∧
    (∃ hr t, open_urls_in_split_windows fuel urls env h = some (hr, h ++ t) ∧
      lifecycle none t = some none ∧ countCalls isRelease t = countCreated t) := by
  cases urls with
  | nil =>
    exact ⟨⟨E_INVALIDARG, [], by simp [open_urls_in_one_window], rfl, rfl⟩,
      ⟨E_INVALIDARG, [], by simp [open_urls_in_split_windows], rfl, rfl⟩⟩
  | cons u0 rest =>
    obtain ⟨hr, t, h1, h2⟩ := open_urls_in_one_window_spec fuel env h u0 rest hfuel
    obtain ⟨hr2, t2, h3, h4⟩ := open_urls_in_split_windows_spec fuel env h u0 rest hfuel
    exact ⟨⟨hr, t, h1, h2.one_ownership⟩, ⟨hr2, t2, h3, h4.split_ownership⟩⟩

theorem release_exactly_once_witness :
    41 ≤ 41 ∧
    (∃ hr t, open_urls_in_one_window 41 ["a", "b"] envFail [] = some (hr, [] ++ t) ∧
      lifecycle none t = some none ∧ countCalls isRelease t = countCreated t) ∧
    (∃ hr t, open_urls_in_split_windows 41 ["a", "b"] envFail [] = some (hr, [] ++ t) ∧
      lifecycle none t = some none ∧ countCalls isRelease t = countCreated t) :=
  ⟨by decide, release_exactly_once 41 envFail [] ["a", "b"] (by decide)⟩

/-- C5. Mode resolution and downgrade: once `CoInitialize` has succeeded, `wWinMain` is the
Split run function when the `--split` flag was parsed and the URL list, after default
substitution, has at least 2 entries, and the Consolidated run function otherwise, followed
by the teardown; the flag is parsed exactly when some argument after the program name is
`--split`.  Consequently the command lines `[prog, --split, A]` and `[prog, A]` give the same
exit code and the same trace, for every oracle. -/
theorem mode_resolution (fuel : Nat) (argv : Option (List String)) (env : Env) :
    (FAILED (initResult env argv) = false →
      wWinMain fuel argv env =
        (if (parse_command_line argv).1 = true ∧ 2 ≤ (parse_command_line argv).2.length then
          open_urls_in_split_windows fuel (parse_command_line argv).2 env (startup env argv)
        else
          open_urls_in_one_window fuel (parse_command_line argv).2 env (startup env argv)).map
        (fun p => (if FAILED p.1 = true then 2 else 0, teardown env argv p.2))) ∧
    ((parse_command_line argv).1 = true ↔ ∃ l, argv = some l ∧ "--split" ∈ l.drop 1) ∧
    (∀ prog A : String,
      wWinMain fuel (some [prog, "--split", A]) env = wWinMain fuel (some [prog, A]) env) := by
  refine ⟨fun hi => ?_, ?_, ?_⟩
  · rw [wWinMain_init_ok fuel argv env hi]
    congr 1
    unfold selected_run
    by_cases hc : (parse_command_line argv).1 = true ∧ 2 ≤ (parse_command_line argv).2.length
    · have hc2 : ((parse_command_line argv).1 &&
          decide (2 ≤ (parse_command_line argv).2.length)) = true := by simpa using hc
      rw [if_pos hc2, if_pos hc]
    · have hc2 : ((parse_command_line argv).1 &&
          decide (2 ≤ (parse_command_line argv).2.length)) = false := by simpa using hc
      rw [if_neg (by simp [hc2]), if_neg hc]
  · cases argv with
    | none => simp [parse_command_line]
    | some l =>
      by_cases hl : 1 < l.length
      · simp [parse_command_line, hl, scan_args_spec]
      · have hd : l.drop 1 = [] := by
          apply List.drop_eq_nil_of_le
          omega
        have hd2 : l.tail = [] := by simpa using hd
        simp [parse_command_line, hl, hd2]
  · intro prog A
    by_cases hA : A = "--split"
    · subst hA
      simp [wWinMain, parse_command_line, scan_args]
    · simp [wWinMain, parse_command_line, scan_args, hA]

/-- C6. Exit-code mapping of `wWinMain`, for every command line and oracle: the program
returns, with exit code 0, 1 or 2; `CoInitialize` is called exactly once; the code is 1
exactly when that call failed, and then the trace has no instance creation, no navigation
request and no `CoUninitialize`; otherwise `CoUninitialize` is called exactly once, the
selected run function has returned some `hr`, the code is 2 exactly when `hr` is a failure
and 0 exactly when it is not, and `hr` is a failure exactly when a creation or a navigation
of the run failed. -/
theorem exit_code_mapping (fuel : Nat) (argv : Option (List String)) (env : Env)
    (hfuel : 41 ≤ fuel) :
    ∃ code t, wWinMain fuel argv env = some (code, t) ∧
      (code = 0 ∨ code = 1 ∨ code = 2) ∧
      countCalls isInit t = 1 ∧
      (∃ e ∈ t, e.call = .CoInitialize ∧ e.resp.hr = initResult env argv) ∧
      (code = 1 ↔ FAILED (initResult env argv) = true) ∧
      (code = 1 → countCalls isCreate t = 0 ∧ countCalls isNav t = 0 ∧
        countCalls isUninit t = 0) ∧
      (code ≠ 1 → countCalls isUninit t = 1 ∧
        ∃ hr tr, selected_run fuel argv env = some (hr, startup env argv ++ tr) ∧
          (code = 2 ↔ FAILED hr = true) ∧ (code = 0 ↔ FAILED hr = false) ∧
          (FAILED hr = true ↔ ¬ cnOk tr)) := by
  rcases wWinMain_cases fuel argv env hfuel with
    ⟨hi, s0, r0, s, s1, hr0, hw⟩ | ⟨hi, s0, r0, u, s1, hr, tr, hr0, hsel, ho, hw⟩
  · refine ⟨_, _, hw, Or.inr (Or.inl rfl), ?_, ?_, ?_, ?_, ?_⟩
    · simp [countCalls_append, countCalls_cons, isInit,
        countCalls_parseReport isInit argv s0 (fun _ _ => rfl),
        countCalls_freeArgv isInit argv s1 rfl]
    · exact ⟨⟨.CoInitialize, r0⟩, by simp, rfl, hr0⟩
    · simp [hi]
    · intro _
      simp [countCalls_append, countCalls_cons, isCreate, isNav, isUninit,
        countCalls_parseReport isCreate argv s0 (fun _ _ => rfl),
        countCalls_freeArgv isCreate argv s1 rfl,
        countCalls_parseReport isNav argv s0 (fun _ _ => rfl),
        countCalls_freeArgv isNav argv s1 rfl,
        countCalls_parseReport isUninit argv s0 (fun _ _ => rfl),
        countCalls_freeArgv isUninit argv s1 rfl]
    · intro hne
      exact (hne rfl).elim
  · have hcode : (if FAILED hr = true then (2 : Int) else 0) ≠ 1 := by
      split <;> decide
    refine ⟨_, _, hw, ?_, ?_, ?_, ?_, ?_, ?_⟩
    · by_cases hf : FAILED hr = true <;> simp [hf]
    · simp [countCalls_append, countCalls_cons, isInit,
        countCalls_parseReport isInit argv s0 (fun _ _ => rfl),
        countCalls_freeArgv isInit argv s1 rfl,
        countCalls_run (p := isInit) ho (fun c hc => by cases c <;> simp_all [isRunCall, isInit])]
    · exact ⟨⟨.CoInitialize, r0⟩, by simp, rfl, hr0⟩
    · simp only [hi, Bool.false_eq_true, iff_false]
      exact hcode
    · intro h1
      exact (hcode h1).elim
    · intro _
      refine ⟨?_, hr, tr, hsel, ?_, ?_, ?_⟩
      · simp [countCalls_append, countCalls_cons, isUninit,
          countCalls_parseReport isUninit argv s0 (fun _ _ => rfl),
          countCalls_freeArgv isUninit argv s1 rfl,
          countCalls_run (p := isUninit) ho
            (fun c hc => by cases c <;> simp_all [isRunCall, isUninit])]
      · by_cases hf : FAILED hr = true <;> simp [hf]
      · by_cases hf : FAILED hr = true <;> simp [hf]
      · rw [← ho.run_result.1]
        simp

theorem exit_code_mapping_witness :
    41 ≤ 41 ∧
    ∃ code t, wWinMain 41 (some ["ie.exe", "--split", "a", "b"]) envFailB = some (code, t) ∧
      (code = 0 ∨ code = 1 ∨ code = 2) ∧
      countCalls isInit t = 1 ∧
      (∃ e ∈ t, e.call = .CoInitialize ∧
        e.resp.hr = initResult envFailB (some ["ie.exe", "--split", "a", "b"])) ∧
      (code = 1 ↔ FAILED (initResult envFailB (some ["ie.exe", "--split", "a", "b"])) = true) ∧
      (code = 1 → countCalls isCreate t = 0 ∧ countCalls isNav t = 0 ∧
        countCalls isUninit t = 0) ∧
      (code ≠ 1 → countCalls isUninit t = 1 ∧
        ∃ hr tr, selected_run 41 (some ["ie.exe", "--split", "a", "b"]) envFailB =
            some (hr, startup envFailB (some ["ie.exe", "--split", "a", "b"]) ++ tr) ∧
          (code = 2 ↔ FAILED hr = true) ∧ (code = 0 ↔ FAILED hr = false) ∧
          (FAILED hr = true ↔ ¬ cnOk tr)) :=
  ⟨by decide, exit_code_mapping 41 (some ["ie.exe", "--split", "a", "b"]) envFailB (by decide)⟩

/-- The three exit codes are all reached: success, failing `CoInitialize`, failing
navigation. -/
theorem exit_code_examples :
    (wWinMain 41 (some ["ie.exe", "a"]) envOk).map (fun p => p.1) = some 0 ∧
    (wWinMain 41 (some ["ie.exe", "a"]) envFail).map (fun p => p.1) = some 1 ∧
    (wWinMain 41 (some ["ie.exe", "--split", "a", "b"]) envFailB).map (fun p => p.1) = some 2 ∧
    wWinMain 41 (some ["ie.exe", "a"]) envFail = some (1,
      [⟨.CoInitialize, respFail⟩, ⟨.show_error E_FAIL "CoInitialize failed", respFail⟩,
       ⟨.LocalFree, respFail⟩]) := by
  decide

/-- The runs of the empty inputs: no argument, only the flag, and a command line that could
not be parsed. -/
theorem argument_extraction_examples :
    wWinMain 41 (some ["ie.exe", "--split"]) envOk = some (0,
      [⟨.CoInitialize, respOk⟩, ⟨.CoCreateInstance, respOk⟩,
       ⟨.put_Visible 7 VARIANT_TRUE, respOk⟩, ⟨.Navigate2 7 "about:blank" none, respOk⟩,
       ⟨.get_Busy 7, respOk⟩, ⟨.Release 7, respOk⟩, ⟨ Call.CoUninitialize, respOk⟩,
       ⟨.LocalFree, respOk⟩]) ∧
    wWinMain 41 (some ["ie.exe"]) envOk =
      wWinMain 41 (some ["ie.exe", "--split"]) envOk ∧
    wWinMain 41 none envOk = some (0,
      [⟨.show_error E_FAIL "failed to parse command line", respOk⟩,
       ⟨.CoInitialize, respOk⟩, ⟨.CoCreateInstance, respOk⟩,
       ⟨.put_Visible 7 VARIANT_TRUE, respOk⟩, ⟨.Navigate2 7 "about:blank" none, respOk⟩,
       ⟨.get_Busy 7, respOk⟩, ⟨.Release 7, respOk⟩, ⟨ Call.CoUninitialize, respOk⟩]) ∧
    parse_command_line (some ["ie.exe", "x", "--split", "y"]) = (true, ["x", "y"]) := by
  decide

/-- C8 (as stated, refuted). Called with the empty list under an oracle for which every call
succeeds, both run functions return the failure `E_INVALIDARG` and issue no call at all:
no instance is created and nothing is navigated. -/
theorem empty_list_not_substituted :
    open_urls_in_one_window 41 [] envOk [] = some (E_INVALIDARG, []) ∧
    open_urls_in_split_windows 41 [] envOk [] = some (E_INVALIDARG, []) ∧
    FAILED E_INVALIDARG = true := by
  decide

/-- C8 (amended). Called with the empty list, both run functions return `E_INVALIDARG`, a
failure, and leave the trace unchanged: no capability call is issued.  The substitution of
`[about:blank]` is done by the caller `wWinMain` before the run function is selected: the
list `wWinMain` builds is never empty, it is `[about:blank]` when the command line could not
be parsed or has no argument other than `--split` after the program name, and the arguments
other than `--split` otherwise; when `CoInitialize` fails no run function is called, and
when it succeeds the run function selected is called on that list. -/
theorem empty_list_rejected (fuel : Nat) (argv : Option (List String)) (env : Env)
    (h : Trace) :
    open_urls_in_one_window fuel [] env h = some (E_INVALIDARG, h) ∧
    open_urls_in_split_windows fuel [] env h = some (E_INVALIDARG, h) ∧
    FAILED E_INVALIDARG = true ∧
    (parse_command_line argv).2 ≠ [] ∧
    (argv = none → (parse_command_line argv).2 = ["about:blank"]) ∧
    (∀ l, argv = some l → (l.drop 1).filter (fun a => a ≠ "--split") = [] →
      (parse_command_line argv).2 = ["about:blank"]) ∧
    (∀ l, argv = some l → (l.drop 1).filter (fun a => a ≠ "--split") ≠ [] →
      (parse_command_line argv).2 = (l.drop 1).filter (fun a => a ≠ "--split")) ∧
    (FAILED (initResult env argv) = true →
      wWinMain fuel argv env = some (1,
        if argv.isSome then
          record env (record env (startup env argv)
            (.show_error (initResult env argv) "CoInitialize failed")) .LocalFree
        else record env (startup env argv)
            (.show_error (initResult env argv) "CoInitialize failed"))) ∧
    (FAILED (initResult env argv) = false →
      wWinMain fuel argv env =
        (if (parse_command_line argv).1 = true ∧ 2 ≤ (parse_command_line argv).2.length then
          open_urls_in_split_windows fuel (parse_command_line argv).2 env (startup env argv)
        else
          open_urls_in_one_window fuel (parse_command_line argv).2 env (startup env argv)).map
        (fun p => (if FAILED p.1 = true then 2 else 0, teardown env argv p.2))) := by
  refine ⟨rfl, rfl, by decide, parse_command_line_ne_nil argv, ?_, ?_, ?_,
    wWinMain_init_failed fuel argv env, wWinMain_selected fuel argv env⟩
  · rintro rfl
    rfl
  · rintro l rfl hl
    rw [parse_command_line_urls, if_pos hl]
  · rintro l rfl hl
    rw [parse_command_line_urls, if_neg hl]

/-- The substitution seen in a run: with no URL argument, and with every call succeeding,
`wWinMain` navigates one instance to `about:blank` and exits with 0, while the run function
called directly on the empty list makes no call and fails. -/
theorem empty_list_example :
    parse_command_line (some ["ie.exe"]) = (false, ["about:blank"]) ∧
    wWinMain 41 (some ["ie.exe"]) envOk = some (0,
      [⟨.CoInitialize, respOk⟩, ⟨.CoCreateInstance, respOk⟩,
       ⟨.put_Visible 7 VARIANT_TRUE, respOk⟩, ⟨.Navigate2 7 "about:blank" none, respOk⟩,
       ⟨.get_Busy 7, respOk⟩, ⟨.Release 7, respOk⟩, ⟨ Call.CoUninitialize, respOk⟩,
       ⟨.LocalFree, respOk⟩]) ∧
    open_urls_in_one_window 41 [] envOk [⟨.CoInitialize, respOk⟩] =
      some (E_INVALIDARG, [⟨.CoInitialize, respOk⟩]) := by
  decide

/-- C9 (as stated, refuted). With `max_ms = 30` and an instance that reports busy, the wait
sleeps once for 50 ms, which exceeds `max_ms`. -/
theorem wait_overshoots_max_ms :
    wait_until_idle 3 envBusy (some 7) 30 [] =
      some [⟨.get_Busy 7, respBusy⟩, ⟨.Sleep 50, respBusy⟩] ∧
    sleptMs [⟨.get_Busy 7, respBusy⟩, ⟨.Sleep 50, respBusy⟩] = 50 ∧
    ¬ (sleptMs [⟨.get_Busy 7, respBusy⟩, ⟨.Sleep 50, respBusy⟩] ≤ 30) := by
  decide

/-- C9 (amended). For every `max_ms` up to 4294967250, the largest multiple of 50 below
`2^32`, every oracle and every instance, `wait_until_idle` returns, having made at most
`⌈max_ms / 50⌉` sleeps of 50 ms each: the time slept is less than `max_ms + 50`, and at most
`max_ms` when `max_ms` is a multiple of 50. -/
theorem wait_bounded (fuel : Nat) (env : Env) (p : Nat) (h : Trace) (max_ms : Nat)
    (hmax : max_ms ≤ 4294967250) (hfuel : (max_ms + 49) / 50 < fuel) :
    ∃ w, wait_until_idle fuel env (some p) max_ms h = some (h ++ w) ∧
      sleptMs w = 50 * countCalls isSleep w ∧
      countCalls isSleep w ≤ (max_ms + 49) / 50 ∧
      sleptMs w < max_ms + 50 ∧
      (50 ∣ max_ms → sleptMs w ≤ max_ms) := by
  obtain ⟨w, hw1, hw2⟩ := wait_loop_shape env p max_ms hmax ((max_ms + 49) / 50) fuel 0 h
    (by simp) (by simp) hfuel
  obtain ⟨k, hk1, hk2, hk3, -⟩ := isWait_counts hw2
  refine ⟨w, hw1, by rw [hk2, hk3], by rw [hk3]; exact hk1, by rw [hk2]; omega, fun hd => ?_⟩
  rw [hk2]
  omega

theorem wait_bounded_witness :
    2000 ≤ 4294967250 ∧ (2000 + 49) / 50 < 41 ∧
    ∃ w, wait_until_idle 41 envBusy (some 7) 2000 [] = some ([] ++ w) ∧
      sleptMs w = 50 * countCalls isSleep w ∧
      countCalls isSleep w ≤ (2000 + 49) / 50 ∧
      sleptMs w < 2000 + 50 ∧
      (50 ∣ 2000 → sleptMs w ≤ 2000) :=
  ⟨by decide, by decide, wait_bounded 41 envBusy 7 [] 2000 (by decide) (by decide)⟩

/-- Beyond the bound of the amended C9 the 32-bit counter wraps: with `max_ms = 0xFFFFFFFF`
and an instance that reports busy forever the loop never ends, whatever the fuel. -/
theorem wait_loop_diverges (fuel : Nat) :
    ∀ (waited : Nat) (h : Trace), waited % 2 = 0 → waited < 2 ^ 32 →
      wait_loop envBusy 7 4294967295 fuel waited h = none := by
  induction fuel with
  | zero => intro waited h _ _; rfl
  | succ f ih =>
    intro waited h h1 h2
    have hw : waited < 4294967295 := by omega
    have hb : (SUCCEEDED (envBusy h (.get_Busy 7)).hr &&
        (envBusy h (.get_Busy 7)).busy == VARIANT_TRUE) = true := by
      show (SUCCEEDED respBusy.hr && respBusy.busy == VARIANT_TRUE) = true
      decide
    simp only [wait_loop, hw, if_true, hb]
    exact ih _ _ (by omega) (by omega)

theorem wait_until_idle_diverges (fuel : Nat) :
    wait_until_idle fuel envBusy (some 7) 4294967295 [] = none :=
  wait_loop_diverges fuel 0 [] (by decide) (by decide)

/-- Two waits with `max_ms = 2000`: an instance that is busy forever is polled 40 times and
slept on for 2000 ms; an instance that is not busy is queried once and never slept on. -/
theorem readiness_wait_examples :
    (wait_until_idle 41 envBusy (some 7) 2000 []).map
        (fun w => (countCalls isQuery w, countCalls isSleep w, sleptMs w)) =
      some (40, 40, 2000) ∧
    wait_until_idle 41 envOk (some 7) 2000 [] = some [⟨.get_Busy 7, respOk⟩] ∧
    wait_until_idle 40 envBusy (some 7) 2000 [] = none := by
  decide

end IE
